import Mathlib

/-!
# Verification of the taketake transfer tool (src/taketake.py)

This file gives a shallow embedding of the pure algorithmic parts of the
taketake program and proves (or refutes) the claims of its specification:

* the spoken-timestamp grammar (`to_num`, `grok_digit_pair`,
  `grok_time_words`, `grok_day_of_month`, `grok_year`, `grok_date_words`,
  `words_to_timestamp`),
* the xdelta verification predicate (`check_xdelta`),
* the PAR2 FEC block sizing (`get_nearest_n`, `par2_blocksize`),
* the silence-span inversion and selection (`invert_silences`,
  `find_likely_audio_span`),
* the JSON progress-sidecar encoder/decoder (`normalizePy`, `decodePy`),
* the stepper cross-queue synchronization protocol (`interPending`,
  `readComplete`, `deliverToken`, `ReachStepper`),
* the reorder step (modelled from the spec; its body is an empty stub in
  the source),
* the `--fallback-timestamp` literal parser (`parse_timestamp`, with a
  model of CPython strptime restricted to the format directives used).

Numbers that are Python ints are modelled as `Nat`/`Int` (Python ints are
unbounded); Python floats that only flow through arithmetic comparisons
are modelled as `ℚ`.
-/

/-! ## Whitespace splitting and stripping (Python str.split / str.strip) -/

/-- Helper for `splitWs`: `cur` holds the reversed current word. -/
def splitWsAux (cur : List Char) : List Char → List String
  | [] => if cur = [] then [] else [String.mk cur.reverse]
  | c :: t =>
    if c.isWhitespace then
      if cur = [] then splitWsAux [] t
      else String.mk cur.reverse :: splitWsAux [] t
    else splitWsAux (c :: cur) t

/-- Python `s.split()`: split on runs of whitespace, dropping empty pieces. -/
def splitWs (s : String) : List String := splitWsAux [] s.data

/-- Python `s.strip()`: drop leading and trailing whitespace. -/
def pyStrip (s : String) : String :=
  String.mk (((s.data.dropWhile Char.isWhitespace).reverse.dropWhile
    Char.isWhitespace).reverse)

/-! ## Spoken-timestamp grammar

Translated from `src/taketake.py` lines 1008-1338.
-/

/-- `TimestampWords.days` (line 1019): note the source lists sunday twice;
only membership matters. -/
def daysList : List String :=
  ["sunday", "monday", "tuesday", "wednesday", "thursday", "friday",
   "saturday", "sunday"]

/-- `TimestampWords.months` (line 1020): word to 0-based position. -/
def monthsList : List (String × Nat) :=
  [("january", 0), ("february", 1), ("march", 2), ("april", 3), ("may", 4),
   ("june", 5), ("july", 6), ("august", 7), ("september", 8),
   ("october", 9), ("november", 10), ("december", 11)]

/-- `TimestampWords.ordinals` (lines 1022-1026): word to position. -/
def ordinalsList : List (String × Nat) :=
  [("zeroth", 0), ("first", 1), ("second", 2), ("third", 3), ("fourth", 4),
   ("fifth", 5), ("sixth", 6), ("seventh", 7), ("eighth", 8), ("ninth", 9),
   ("tenth", 10), ("eleventh", 11), ("twelfth", 12), ("thirteenth", 13),
   ("fourteenth", 14), ("fifteenth", 15), ("sixteenth", 16),
   ("seventeenth", 17), ("eighteenth", 18), ("nineteenth", 19),
   ("twentieth", 20), ("21st", 21), ("22nd", 22), ("23rd", 23),
   ("24th", 24), ("25th", 25), ("26th", 26), ("27th", 27), ("28th", 28),
   ("29th", 29), ("thirtieth", 30)]

/-- Association-list lookup with propositional equality on the keys. -/
def lookupStr (w : String) : List (String × Nat) → Option Nat
  | [] => none
  | (k, v) :: t => if k = w then some v else lookupStr w t

/-- The word table of the external `word2number` library
(`w2n.american_number_system`), which `to_num` (line 1031) consults for a
single word at a time.  A plain digit string is accepted first
(`number_sentence.isdigit()` in `w2n.word_to_num`); a word not in the table
raises ValueError there, which `to_num` turns into None. -/
def numberWords : List (String × Nat) :=
  [("zero", 0), ("one", 1), ("two", 2), ("three", 3), ("four", 4),
   ("five", 5), ("six", 6), ("seven", 7), ("eight", 8), ("nine", 9),
   ("ten", 10), ("eleven", 11), ("twelve", 12), ("thirteen", 13),
   ("fourteen", 14), ("fifteen", 15), ("sixteen", 16), ("seventeen", 17),
   ("eighteen", 18), ("nineteen", 19), ("twenty", 20), ("thirty", 30),
   ("forty", 40), ("fifty", 50), ("sixty", 60), ("seventy", 70),
   ("eighty", 80), ("ninety", 90), ("hundred", 100), ("thousand", 1000),
   ("million", 1000000), ("billion", 1000000000)]

/-- `to_num` (line 1031): apply the `TimestampWords.corrections`
substitutions why → one and oh → zero, then look the word up via
`w2n.word_to_num`, returning None on failure. -/
def to_num (w : String) : Option Nat :=
  let w' := if w = "why" then "one" else if w = "oh" then "zero" else w
  if w'.data ≠ [] ∧ w'.data.all Char.isDigit then
    some (w'.data.foldl (fun acc c => acc * 10 + (c.toNat - 48)) 0)
  else lookupStr w' numberWords

/-- `to_num` lifted to `cur_word()`-style optional words: in the source,
`to_num(None)` returns None because `w2n.word_to_num` raises ValueError on
a non-string. -/
def to_numO : Option String → Option Nat
  | none => none
  | some w => to_num w

/-- `pop_optional_words` (line 1041): pop off the given words in the order
specified, skipping those that are not at the head.  Returns the popped
words and the remaining list; the source returns the popped words joined
with spaces and uses the truthiness of that string, which equals the
popped list being nonempty. -/
def pop_optional_words : List String → List String → List String × List String
  | wl, [] => ([], wl)
  | wl, o :: os =>
    match wl with
    | [] => ([], [])
    | w :: rest =>
      if w = o then
        let (p, r) := pop_optional_words rest os
        (o :: p, r)
      else
        pop_optional_words (w :: rest) os

/-- `grok_digit_pair` (line 1056): parse a 1- or 2-word doublet of timey
numbers.  If no number is found the list is unchanged and 0 is returned. -/
def grok_digit_pair : List String → Nat × List String
  | [] => (0, [])
  | w :: rest =>
    match to_num w with
    | none => (0, w :: rest)
    | some v =>
      if v = 0 ∨ 20 ≤ v then
        match rest with
        | [] => (v, [])
        | w2 :: rest2 =>
          match to_num w2 with
          | some v2 => if v2 < 10 then (v + v2, rest2) else (v, rest)
          | none => (v, rest)
      else (v, rest)

/-- `grok_time_words` (line 1077): returns (hour, minute, second, rest).
The control flow mirrors the source exactly; note that when the first
"second(s)" demotion fires, Python's `if not done and pop(...)`
short-circuits into the else branch, so a minute doublet is still parsed
(and a further "second(s)" there overwrites the seconds value). -/
def grok_time_words (l0 : List String) : Nat × Nat × Nat × List String :=
  let p0 := grok_digit_pair l0
  let h0 := p0.1
  let q1 := pop_optional_words p0.2 ["second", "seconds"]
  if q1.1 ≠ [] then
    let q2 := pop_optional_words q1.2
      ["hundred", "hour", "hours", "oh", "clock", "oclock", "o'clock", "and"]
    let p1 := grok_digit_pair q2.2
    let q3 := pop_optional_words p1.2 ["second", "seconds"]
    if q3.1 ≠ [] then (0, 0, p1.1, q3.2)
    else
      let q4 := pop_optional_words q3.2
        ["oh", "clock", "oclock", "o'clock", "minute", "minutes", "and"]
      (0, p1.1, h0, q4.2)
  else
    let qm := pop_optional_words q1.2 ["minute", "minutes"]
    if qm.1 ≠ [] then
      let qa := pop_optional_words qm.2 ["and"]
      let ps := grok_digit_pair qa.2
      let qs := pop_optional_words ps.2 ["second", "seconds"]
      (0, h0, ps.1, qs.2)
    else
      let q2 := pop_optional_words qm.2
        ["hundred", "hour", "hours", "oh", "clock", "oclock", "o'clock", "and"]
      let p1 := grok_digit_pair q2.2
      let q3 := pop_optional_words p1.2 ["second", "seconds"]
      if q3.1 ≠ [] then (h0, 0, p1.1, q3.2)
      else
        let q4 := pop_optional_words q3.2
          ["oh", "clock", "oclock", "o'clock", "minute", "minutes", "and"]
        let ps := grok_digit_pair q4.2
        let qs := pop_optional_words ps.2 ["second", "seconds"]
        (h0, p1.1, ps.1, qs.2)

/-- Errors raised by the grammar.  `timestampGrok` is `TimestampGrokError`;
`assertionFail` is a Python AssertionError (from a bare `assert False`);
`valueError` is a ValueError raised by the `datetime` constructors on an
out-of-range field. -/
inductive GrokErr
  | timestampGrok
  | assertionFail
  | valueError
deriving DecidableEq

/-- `word_list[idx]` guarded by length, as in `cur_word()` (line 1163). -/
def curW (wl : List String) (i : Nat) : Option String := wl[i]?

/-- `grok_day_of_month` (line 1116): pop the day of month.  The final word
popped must be an ordinal; a leading cardinal is added to it. -/
def grok_day_of_month (wl : List String) : Except GrokErr (Nat × List String) :=
  match wl with
  | [] => .error .timestampGrok
  | w :: _ =>
    let p : Nat × Nat :=
      match to_num w with
      | none => (0, 0)
      | some v => (v, 1)
    match curW wl p.2 with
    | some w2 =>
      match lookupStr w2 ordinalsList with
      | some ov =>
        let day := p.1 + ov
        if day < 1 ∨ 31 < day then .error .timestampGrok
        else .ok (day, wl.drop (p.2 + 1))
      | none => .error .timestampGrok
    | none => .error .timestampGrok

/-- Range check and final pop of `grok_year` (lines 1254-1262). -/
def finYear (y idx : Nat) (wl : List String) : Except GrokErr (Nat × List String) :=
  if y < 1900 ∨ 2999 < y then .error .timestampGrok
  else .ok (y, wl.drop idx)

/-- `grok_year` (line 1153): pop the year, expecting 19xx-2999.  The index
bookkeeping mirrors the source's `idx`/`cur_word()` logic. -/
def grok_year (wl : List String) : Except GrokErr (Nat × List String) :=
  match to_numO (curW wl 0) with
  | none => .error .timestampGrok
  | some y0 =>
    if 1 ≤ y0 ∧ y0 ≤ 3 then
      if curW wl 1 = some "thousand" then
        let i2 := if curW wl 2 = some "and" then 3 else 2
        match to_numO (curW wl i2) with
        | some n1 =>
          let i3 := i2 + 1
          if n1 < 10 then
            if curW wl i3 = some "hundred" then
              let i4 := i3 + 1
              let i5 := if curW wl i4 = some "and" then i4 + 1 else i4
              match to_numO (curW wl i5) with
              | some n2 =>
                let i6 := i5 + 1
                match to_numO (curW wl i6) with
                | some n3 =>
                  if n3 < 10 then finYear (y0 * 1000 + n1 * 100 + n2 + n3) (i6 + 1) wl
                  else finYear (y0 * 1000 + n1 * 100 + n2) i6 wl
                | none => finYear (y0 * 1000 + n1 * 100 + n2) i6 wl
              | none => finYear (y0 * 1000 + n1 * 100) i5 wl
            else finYear (y0 * 1000 + n1) i3 wl
          else if 10 ≤ n1 ∧ n1 < 20 then finYear (y0 * 1000 + n1) i3 wl
          else if n1 < 30 then
            match to_numO (curW wl i3) with
            | some n2 =>
              if n2 < 10 then finYear (y0 * 1000 + n1 + n2) (i3 + 1) wl
              else finYear (y0 * 1000 + n1) i3 wl
            | none => finYear (y0 * 1000 + n1) i3 wl
          else finYear (y0 * 1000) i3 wl
        | none => finYear (y0 * 1000) i2 wl
      else .error .timestampGrok
    else if 19 ≤ y0 ∧ y0 ≤ 29 then
      let pA : Nat × Nat :=
        match to_numO (curW wl 1) with
        | some n1 => if 19 < y0 ∧ n1 < 10 then (y0 + n1, 2) else (y0, 1)
        | none => (y0, 1)
      let yB := pA.1 * 100
      let pB : Bool × Nat :=
        if curW wl pA.2 = some "hundred" then (false, pA.2 + 1) else (true, pA.2)
      let iC := if curW wl pB.2 = some "and" then pB.2 + 1 else pB.2
      match to_numO (curW wl iC) with
      | some n2 =>
        let iD := iC + 1
        if n2 = 0 ∨ (10 ≤ n2 ∧ n2 < 30) then
          match to_numO (curW wl iD) with
          | some n3 =>
            if n3 < 10 then finYear (yB + n2 + n3) (iD + 1) wl
            else finYear (yB + n2) iD wl
          | none => finYear (yB + n2) iD wl
        else finYear (yB + n2) iD wl
      | none =>
        if pB.1 then .error .timestampGrok else finYear yB iC wl
    else finYear y0 1 wl

/-- Gregorian leap year, as used by `datetime.date`. -/
def isLeap (y : Nat) : Bool := (y % 4 = 0 ∧ y % 100 ≠ 0) ∨ y % 400 = 0

/-- Days in a month of the proleptic Gregorian calendar. -/
def daysInMonth (y m : Nat) : Nat :=
  if m = 2 then (if isLeap y then 29 else 28)
  else if m = 4 ∨ m = 6 ∨ m = 9 ∨ m = 11 then 30
  else 31

/-- The `datetime.date(year, month, day)` constructor validity check. -/
def validDate (y m d : Nat) : Bool :=
  1 ≤ y ∧ y ≤ 9999 ∧ 1 ≤ m ∧ m ≤ 12 ∧ 1 ≤ d ∧ d ≤ daysInMonth y m

/-- `grok_date_words` (line 1265): optional weekday, required month name
(the source hits `assert False` when the month is missing, raising
AssertionError, not TimestampGrokError), day of month, optional weekday,
year, and a weekday sanity check that constructs a `datetime.date`
(raising ValueError on an invalid date) but only warns on mismatch. -/
def grok_date_words (wl0 : List String) :
    Except GrokErr (Nat × Nat × Nat × Option String × List String) :=
  let s1 : Option String × List String :=
    match wl0 with
    | w :: rest => if w ∈ daysList then (some w, rest) else (none, wl0)
    | [] => (none, wl0)
  match s1.2 with
  | w :: rest =>
    match lookupStr w monthsList with
    | some mIdx =>
      let month := mIdx + 1
      match grok_day_of_month rest with
      | .error e => .error e
      | .ok (day, wl2) =>
        let s2 : Option String × List String :=
          match wl2 with
          | w2 :: rest2 => if w2 ∈ daysList then (some w2, rest2) else (s1.1, wl2)
          | [] => (s1.1, wl2)
        match grok_year s2.2 with
        | .error e => .error e
        | .ok (year, wl3) =>
          if s2.1.isSome ∧ ¬ validDate year month day then .error .valueError
          else .ok (year, month, day, s2.1, wl3)
    | none => .error .assertionFail
  | [] => .error .assertionFail

/-- A `datetime.datetime` value (no timezone, no sub-second part needed). -/
structure DateTimeV where
  year : Nat
  month : Nat
  day : Nat
  hour : Nat
  minute : Nat
  second : Nat
deriving DecidableEq

/-- A word is a date-section starter: weekday name or month name
(`words_to_timestamp` lines 1321-1325). -/
def isDateWord (w : String) : Bool :=
  w ∈ daysList ∨ (lookupStr w monthsList).isSome

/-- Index of the first weekday-or-month word, if any. -/
def splitIdx : List String → Option Nat
  | [] => none
  | w :: ws =>
    if isDateWord w then some 0 else (splitIdx ws).map (fun i => i + 1)

/-- `words_to_timestamp` (line 1299) on the already-split word list:
locate the first weekday/month word (else TimestampGrokError), parse the
time words before it and the date words from it, and build the
`datetime.datetime` (whose constructor raises ValueError on out-of-range
fields). -/
def words_to_timestamp_words (words : List String) :
    Except GrokErr (DateTimeV × List String) :=
  match splitIdx words with
  | none => .error .timestampGrok
  | some i =>
    let tw := grok_time_words (words.take i)
    match grok_date_words (words.drop i) with
    | .error e => .error e
    | .ok (y, mo, d, _, extra) =>
      if validDate y mo d ∧ tw.1 ≤ 23 ∧ tw.2.1 ≤ 59 ∧ tw.2.2.1 ≤ 59 then
        .ok (⟨y, mo, d, tw.1, tw.2.1, tw.2.2.1⟩, extra)
      else .error .valueError

/-- `words_to_timestamp` applied to the raw transcript text. -/
def words_to_timestamp (text : String) : Except GrokErr (DateTimeV × List String) :=
  words_to_timestamp_words (splitWs text)

/-! ## PAR2 FEC block sizing

Translated from `src/taketake.py` lines 728-749.
-/

/-- `get_nearest_n` (line 728): round up to the nearest non-zero multiple
of n.  Python's `//` is floor division, i.e. `Int.fdiv`; the source
computes `-(-x // n) * n` and falls back to `n` when that is zero. -/
def get_nearest_n (x n : Int) : Int :=
  let rounded := -((-x).fdiv n) * n
  if rounded ≠ 0 then rounded else n

/-- The `num_par2_bytes` and `min_blocksize` computation of `par2_create`
(lines 741-743), with `Config.par2_max_num_blocks = 10000`. -/
def par2_min_blocksize (filesize numFiles pct : Nat) : Int :=
  (((filesize * numFiles * pct : Int)).fdiv 100).fdiv 10000

/-- The block size `par2_create` passes to the PAR2 tool (line 744), with
`Config.par2_base_blocksize = 4096`. -/
def par2_blocksize (filesize numFiles pct : Nat) : Int :=
  get_nearest_n (par2_min_blocksize filesize numFiles pct) 4096

/-! ## Silence inversion and likely-audio-span selection

Translated from `src/taketake.py` lines 929-975.  Times are seconds;
Python floats are modelled as rationals.  The `Config` constants involved:
`epsilon_s = 0.01`, `min_talk_duration_s = 2.5`, `max_talk_duration_s =
15`, `talk_attack_s = 0.2`, `talk_release_s = 0.2`.
-/

/-- `TimeRange` (line 147), with rational times. -/
structure TimeRangeQ where
  start : ℚ
  duration : ℚ
deriving DecidableEq

def epsilon_s : ℚ := 1 / 100
def min_talk_duration_s : ℚ := 5 / 2
def max_talk_duration_s : ℚ := 15
def talk_attack_s : ℚ := 1 / 5
def talk_release_s : ℚ := 1 / 5

/-- The loop body of `invert_silences` (lines 936-944): `prev` is
`prev_silence_end`, and the iteration runs over the silences with the
sentinel `TimeRange(file_scan_duration_s, 0.0)` appended. -/
def invertAux (prev : ℚ) : List TimeRangeQ → List TimeRangeQ
  | [] => []
  | r :: rs =>
    (if prev + epsilon_s < r.start then [⟨prev, r.start - prev⟩] else []) ++
      invertAux (r.start + r.duration) rs

/-- `invert_silences` (line 929): the non-silent gaps of [0, scan], where
a gap is only emitted when it exceeds `epsilon_s`. -/
def invert_silences (silences : List TimeRangeQ) (file_scan_duration_s : ℚ) :
    List TimeRangeQ :=
  invertAux 0 (silences ++ [⟨file_scan_duration_s, 0⟩])

/-- The selection loop of `find_likely_audio_span` (lines 964-975) over
the inverted silence list: take the first span at least
`min_talk_duration_s` long, pull its start back by `talk_attack_s`
(clamped at 0), widen the duration by attack+release, and cap the widened
duration at `max_talk_duration_s`; error out if no span qualifies
(`NoSuitableAudioSpan`). -/
def pickAudioSpan : List TimeRangeQ → Except Unit TimeRangeQ
  | [] => .error ()
  | r :: rs =>
    if min_talk_duration_s ≤ r.duration then
      .ok ⟨max 0 (r.start - talk_attack_s),
           min (r.duration + talk_attack_s + talk_release_s) max_talk_duration_s⟩
    else pickAudioSpan rs

/-- `find_likely_audio_span` (line 949), given the detected silences (the
`detect_silence` subprocess output) and the scan cap. -/
def find_likely_audio_span (silences : List TimeRangeQ) (scan_to_s : ℚ) :
    Except Unit TimeRangeQ :=
  pickAudioSpan (invert_silences silences scan_to_s)

/-! ## Stepper cross-queue synchronization

Translated from `Stepper._get_across` (src/taketake.py lines 1536-1607).
A token is `Option Nat`; `none` is the end token (`None` in the source).
Each `pull_from` queue carries a `pending` set of tokens read from it but
not yet delivered, plus the full history `produced` of tokens read from
it (each successful `q.get()` completion appends to it).
-/

/-- A queue token: `none` models the end token `None`. -/
abbrev StepToken := Option Nat

/-- The per-queue synchronization state of `StepperQueue` (line 1446):
`pending` is `q.pending`, `produced` records every token a completed
`q.get()` has returned so far. -/
structure QState where
  produced : List StepToken
  pending : Finset StepToken
deriving DecidableEq

/-- `set.intersection(*[q.pending for q in q_list])` (line 1555): the
tokens currently pending on every queue; the source requires `q_list`
nonempty. -/
def interPending : List QState → Finset StepToken
  | [] => ∅
  | q :: qs => qs.foldl (fun acc r => acc ∩ r.pending) q.pending

/-- A read completion in the wait loop (lines 1590-1607): queue `i`
produced token `t`; if `t` is already pending on that queue the stepper
raises `DuplicateTokenError` (modelled as `none`), otherwise `t` is
inserted into the pending set and recorded as produced. -/
def readComplete (qs : List QState) (i : Nat) (t : StepToken) :
    Option (List QState) :=
  match qs[i]? with
  | none => none
  | some q =>
    if t ∈ q.pending then none
    else some (qs.set i ⟨q.produced ++ [t], insert t q.pending⟩)

/-- Delivery of a ready token (lines 1583-1585): `t` is removed from every
pending set and returned from `_get_across`. -/
def deliverToken (qs : List QState) (t : StepToken) : List QState :=
  qs.map (fun q => ⟨q.produced, q.pending.erase t⟩)

/-- The states reachable by a stepper with k pull_from queues: start with
all queues empty, then interleave read completions and deliveries; a
delivery of `t` requires `t ∈ interPending qs`, exactly the
`tokens_done` test of lines 1555-1585. -/
inductive ReachStepper : List QState → Prop
  | init (k : Nat) : ReachStepper (List.replicate k ⟨[], ∅⟩)
  | read {qs qs' : List QState} {i : Nat} {t : StepToken} :
      ReachStepper qs → readComplete qs i t = some qs' → ReachStepper qs'
  | deliver {qs : List QState} {t : StepToken} :
      ReachStepper qs → t ∈ interPending qs → ReachStepper (deliverToken qs t)

/-! ## The reorder step -/

/-- `Step.reorder` (line 2121): an unimplemented stub.  It is wired into
the pipeline between `listen` and `autoname` as a plain (non-stepped)
task coroutine, but its body is only an empty docstring: the coroutine
returns immediately without ever awaiting `stepper.get()` or calling
`stepper.put(...)`.  Whatever sequence of tokens arrives on its pull
queue, the sequence of tokens it emits is empty — it does not even
forward the end token. -/
def reorder (_arrivals : List StepToken) : List StepToken := []

/-! ## JSON progress-sidecar encoding and decoding

Translated from `src/taketake.py` lines 215-247
(`TaketakeJsonEncoder.default`, `taketake_json_decode`, `write_json`,
`read_json`).  Python values that can appear in a progress sidecar are
modelled by `Py`; the dataclasses `AudioInfo` and `TimeRange` keep their
fields as arbitrary `Py` values just as Python dataclasses do (fields are
not type-checked at runtime).  JSON text is abstracted away: `normalizePy`
produces the tree structure that `json.dumps` serializes (tagged dicts for
values handled by the encoder's `default` hook) and `decodePy` is
`json.loads` with `object_hook=taketake_json_decode` applied bottom-up.
Floats are modelled as rationals.
-/

/-- Python values in the sidecar domain. -/
inductive Py
  | pnone
  | pbool (b : Bool)
  | pnum (q : ℚ)
  | pstr (s : String)
  | plist (l : List Py)
  | pdict (l : List (String × Py))
  | ppath (s : String)
  | pdt (ts : ℚ)
  | timeRange (start duration : Py)
  | audioInfo (duration_s speech_range recognized_speech parsed_timestamp
      extra_speech : Py)

/-! `normalizePy` below is the structure `json.dumps(·,
cls=TaketakeJsonEncoder)` serializes.

The boolean argument records whether the value was produced by an
enclosing `dataclasses.asdict` call: `asdict` recursively converts nested
dataclasses to plain (untagged) dicts, while a dataclass met directly by
the encoder goes through `default` (lines 216-220), which tags the
`asdict` result with `__dataclass__`.  `Path` and `datetime` values are
copied untouched by `asdict` and are therefore always tagged by `default`
(lines 221-225). -/

mutual

def normalizePy (inDC : Bool) : Py → Py
  | .pnone => .pnone
  | .pbool b => .pbool b
  | .pnum q => .pnum q
  | .pstr s => .pstr s
  | .plist l => .plist (normalizeList inDC l)
  | .pdict l => .pdict (normalizePairs inDC l)
  | .ppath s => .pdict [("__Path__", .pbool true), ("path", .pstr s)]
  | .pdt ts => .pdict [("__datetime__", .pbool true), ("timestamp", .pnum ts)]
  | .timeRange s d =>
    .pdict ([("start", normalizePy true s), ("duration", normalizePy true d)] ++
      (if inDC then [] else [("__dataclass__", .pstr "TimeRange")]))
  | .audioInfo d sr rs pt ex =>
    .pdict ([("duration_s", normalizePy true d),
             ("speech_range", normalizePy true sr),
             ("recognized_speech", normalizePy true rs),
             ("parsed_timestamp", normalizePy true pt),
             ("extra_speech", normalizePy true ex)] ++
      (if inDC then [] else [("__dataclass__", .pstr "AudioInfo")]))

def normalizeList (inDC : Bool) : List Py → List Py
  | [] => []
  | x :: t => normalizePy inDC x :: normalizeList inDC t

def normalizePairs (inDC : Bool) : List (String × Py) → List (String × Py)
  | [] => []
  | (k, v) :: t => (k, normalizePy inDC v) :: normalizePairs inDC t

end

/-- Look a key up in a decoded JSON object. -/
def pyGet (k : String) : List (String × Py) → Option Py
  | [] => none
  | (k', v) :: t => if k' = k then some v else pyGet k t

/-- Remove a key from a decoded JSON object (`d.pop`). -/
def pyRemove (k : String) : List (String × Py) → List (String × Py)
  | [] => []
  | (k', v) :: t => if k' = k then pyRemove k t else (k', v) :: pyRemove k t

/-- `taketake_json_decode` (lines 229-241), the `object_hook`: a dict with
a `__dataclass__` tag is rebuilt as the named dataclass from its remaining
entries (`cls(**d)`; a shape that `cls(**d)` would reject with TypeError
is left as a dict here, which no claim exercises); `__Path__` and
`__datetime__` tags rebuild `Path` and `datetime.fromtimestamp` values;
anything else stays a plain dict. -/
def taketake_json_decode (d : List (String × Py)) : Py :=
  match pyGet "__dataclass__" d with
  | some tag =>
    let d' := pyRemove "__dataclass__" d
    match tag with
    | .pstr cn =>
      if cn = "AudioInfo" then
        .audioInfo ((pyGet "duration_s" d').getD .pnone)
          ((pyGet "speech_range" d').getD .pnone)
          ((pyGet "recognized_speech" d').getD .pnone)
          ((pyGet "parsed_timestamp" d').getD .pnone)
          ((pyGet "extra_speech" d').getD (.plist []))
      else if cn = "TimeRange" then
        match pyGet "start" d', pyGet "duration" d' with
        | some s, some du => if d'.length = 2 then .timeRange s du else .pdict d'
        | _, _ => .pdict d'
      else .pdict d'
    | _ => .pdict d'
  | none =>
    if (pyGet "__Path__" d).isSome then
      match pyGet "path" d with
      | some (.pstr s) => .ppath s
      | _ => .pdict d
    else if (pyGet "__datetime__" d).isSome then
      match pyGet "timestamp" d with
      | some (.pnum q) => .pdt q
      | _ => .pdict d
    else .pdict d

mutual

/-- `json.loads(..., object_hook=taketake_json_decode)`: the hook runs
bottom-up on every object. -/
def decodePy : Py → Py
  | .pdict l => taketake_json_decode (decodePyPairs l)
  | .plist l => .plist (decodePyList l)
  | x => x

def decodePyList : List Py → List Py
  | [] => []
  | x :: t => decodePy x :: decodePyList t

def decodePyPairs : List (String × Py) → List (String × Py)
  | [] => []
  | (k, v) :: t => (k, decodePy v) :: decodePyPairs t

end

/-- The `write_json` then `read_json` round trip of a Python value. -/
def json_roundtrip (p : Py) : Py := decodePy (normalizePy false p)

/-! ## The xdelta verification predicate

Translated from `check_xdelta` (src/taketake.py lines 578-725).  The
inputs are the two sizes, the stdout lines of `xdelta3 printdelta` (the
`getline` helper strips each line; reading past the end of the stream
yields the empty string), the collected stderr, and the exit code.  After
the end-of-stream check succeeds there can be no further stdout data, so
the `p.stdout_data` check never fires and is not modelled.  Errors carry a
short tag naming the `fail(...)` call site instead of the full message. -/

/-- Split a string at its first colon, as `line.split(":", maxsplit=1)`,
returning none when there is no colon (`":" not in line`). -/
def splitColonChars : List Char → Option (List Char × List Char)
  | [] => none
  | c :: t =>
    if c = ':' then some ([], t)
    else (splitColonChars t).map (fun p => (c :: p.1, p.2))

def splitColon (s : String) : Option (String × String) :=
  (splitColonChars s.data).map (fun p => (String.mk p.1, String.mk p.2))

/-- The `expected_vcdiffs` dict of lines 618-624. -/
def requiredVcdiffs (sz : Nat) : List (String × String) :=
  [("VCDIFF header indicator", "VCD_APPHEADER"),
   ("VCDIFF copy window length", toString sz),
   ("VCDIFF copy window offset", "0"),
   ("VCDIFF target window length", toString sz),
   ("VCDIFF data section length", "0")]

/-- `header_line` of line 626. -/
def vcdiffColumnHeader : String :=
  "Offset Code Type1 Size1 @Addr1 + Type2 Size2 @Addr2"

/-- `expected_instr` of line 627 (compared word-by-word after split). -/
def expectedInstr (sz : Nat) : List String :=
  ["000000", "019", "CPY_0", toString sz, "@0"]

/-- One header line applied to the expectation dict (lines 667-672): an
unknown key passes through; a known key must carry its expected value and
is marked found (set to `none`), and a second occurrence fails because the
stored `None` no longer equals the value. -/
def stepVcdiffDict : List (String × Option String) → String → String →
    Except String (List (String × Option String))
  | [], _, _ => .ok []
  | (k, v) :: ds, key, value =>
    if k = key then
      match v with
      | some ev => if ev = value then .ok ((k, none) :: ds) else .error "keyValue"
      | none => .error "keyValue"
    else
      match stepVcdiffDict ds key value with
      | .ok ds' => .ok ((k, v) :: ds')
      | .error e => .error e

/-- The `while line := await getline()` header loop (lines 662-672):
consume lines while they are nonempty and contain a colon, updating the
dict; return the dict, the line that ended the loop (the empty string
when the stream ended or a blank line was read), and the unread lines. -/
def processVcdiffHeaders (dict : List (String × Option String)) :
    List String → Except String ((List (String × Option String)) × String × List String)
  | [] => .ok (dict, "", [])
  | l :: rest =>
    let line := pyStrip l
    if line = "" then .ok (dict, "", rest)
    else
      match splitColon line with
      | none => .ok (dict, line, rest)
      | some (key, rawv) =>
        match stepVcdiffDict dict key (pyStrip rawv) with
        | .ok d' => processVcdiffHeaders d' rest
        | .error e => .error e

/-- The initial expectation dict (all values still expected). -/
def initVcdiffDict (sz : Nat) : List (String × Option String) :=
  (requiredVcdiffs sz).map (fun p => (p.1, some p.2))

/-- `check_xdelta` (line 578): the pre-parse size check, the header loop,
the not-yet-found check (lines 675-677), the column-header line, the
single CPY_0 instruction line, a blank line, end of stream, empty stderr,
and exit code 0.  Returns `.ok ()` where the source returns normally and
`.error tag` where it raises `XdeltaMismatch`. -/
def check_xdelta (expected_size target_size : Nat) (lines : List String)
    (stderrData : String) (returncode : Int) : Except String Unit :=
  if expected_size ≠ target_size then .error "sizePrecheck"
  else
    match processVcdiffHeaders (initVcdiffDict expected_size) lines with
    | .error e => .error e
    | .ok (dict, line, rest) =>
      if dict.any (fun kv => kv.2.isSome) then .error "missingKey"
      else if line ≠ vcdiffColumnHeader then .error "header"
      else if splitWs (pyStrip (rest.getD 0 "")) ≠ expectedInstr expected_size then
        .error "instruction"
      else if pyStrip (rest.getD 1 "") ≠ "" then .error "empty"
      else if 2 < rest.length then .error "eof"
      else if stderrData ≠ "" then .error "stderr"
      else if returncode ≠ 0 then .error "returncode"
      else .ok ()

/-! ### Declarative characterizations of accepted xdelta dumps -/

/-- A line the header loop consumes: nonempty after stripping and
containing a colon. -/
def isColonLine (l : String) : Bool := pyStrip l ≠ "" ∧ (splitColon (pyStrip l)).isSome

/-- The key of a header line. -/
def keyOf (l : String) : Option String := (splitColon (pyStrip l)).map Prod.fst

/-- The (stripped) value of a header line. -/
def valOf (l : String) : String := pyStrip (((splitColon (pyStrip l)).map Prod.snd).getD "")

/-- A header section satisfying a list of required key/value pairs: every
line is a consumable header line, each required key occurs exactly once,
and each occurrence of a required key carries the required value. -/
def headerSection (req : List (String × String)) (hdr : List String) : Prop :=
  (∀ l ∈ hdr, isColonLine l) ∧
    ∀ kv ∈ req, (hdr.countP (fun l => keyOf l = some kv.1)) = 1 ∧
      ∀ l ∈ hdr, keyOf l = some kv.1 → valOf l = kv.2

/-- The accepted dump shapes for a given required-field list: a header
section, the column-header row, the single full-copy instruction line,
and an optional blank line before the end of the stream. -/
def xdeltaDumpOK (req : List (String × String)) (sz : Nat)
    (lines : List String) : Prop :=
  ∃ hdr h1 tail, lines = hdr ++ h1 :: tail ∧ headerSection req hdr ∧
    pyStrip h1 = vcdiffColumnHeader ∧
    ((∃ i1, tail = [i1] ∧ splitWs (pyStrip i1) = expectedInstr sz) ∨
     (∃ i1 e1, tail = [i1, e1] ∧ splitWs (pyStrip i1) = expectedInstr sz ∧
       pyStrip e1 = ""))

/-- Claim C2 as stated, modelled from the claim's words: the check passes
iff the sizes agree and the dump contains the four header fields
copy-window length, copy-window offset, target-window length and
data-section length with the stated values, followed by exactly one
CPY_0 instruction line, then end of output, with empty stderr and zero
exit code.  (The claim omits the header-indicator field.) -/
def xdeltaClaimOK (expected_size target_size : Nat) (lines : List String)
    (stderrData : String) (returncode : Int) : Prop :=
  expected_size = target_size ∧ stderrData = "" ∧ returncode = 0 ∧
    xdeltaDumpOK
      [("VCDIFF copy window length", toString expected_size),
       ("VCDIFF copy window offset", "0"),
       ("VCDIFF target window length", toString expected_size),
       ("VCDIFF data section length", "0")]
      expected_size lines

/-! ### Decomposition helpers for the header-loop proof -/

/-- Association lookup in the expectation dict. -/
def dictLookup (k : String) : List (String × Option String) → Option (Option String)
  | [] => none
  | (k', v) :: t => if k' = k then some v else dictLookup k t

/-- Mark a key as found (its expected value set to `none`). -/
def dictSetNone (k : String) (d : List (String × Option String)) :
    List (String × Option String) :=
  d.map (fun kv => if kv.1 = k then (kv.1, none) else kv)

/-- The dict-updating part of the header loop, isolated from the line
consumption: apply `stepVcdiffDict` for each header line in order. -/
def foldHdr (dict : List (String × Option String)) :
    List String → Except String (List (String × Option String))
  | [] => .ok dict
  | l :: ls =>
    match splitColon (pyStrip l) with
    | none => foldHdr dict ls
    | some (k, rv) =>
      match stepVcdiffDict dict k (pyStrip rv) with
      | .ok d' => foldHdr d' ls
      | .error e => .error e

/-- The loop-breaking line as the header loop reports it. -/
def brkOf : List String → String
  | [] => ""
  | l :: _ => pyStrip l

/-- The lines left unread once the loop breaks. -/
def tailOf : List String → List String
  | [] => []
  | _ :: t => t

/-! ## The fallback-timestamp literal parser

Translated from `parse_timestamp` (src/taketake.py lines 897-923), which
normalizes `_` and space separators to `-` and then tries
`datetime.strptime` with the formats `%Y%m%d-%H%M-%a`, `%Y%m%d-%H%M`,
`%Y%m%d-%H%M%S-%a`, `%Y%m%d-%H%M%S` in that order.

CPython `_strptime` compiles each directive to a regular expression
fragment and takes the first (backtracking-order) match of the whole
pattern; if that match does not consume the entire string the parse fails
("unconverted data remains").  The directive fragments used here are
`%Y = dddd`, `%m = 1[0-2]|0[1-9]|[1-9]`, `%d = 3[01]|[1-2]d|0[1-9]|[1-9]`,
`%H = 2[0-3]|[0-1]d|d`, `%M = [0-5]d|d`, `%S = 6[0-1]|[0-5]d|d`,
`%a =` the case-insensitive weekday abbreviations, with literal characters
matched verbatim.  Each directive model returns the list of its possible
(value, rest) outcomes in regex alternation order, and sequencing keeps
that order, so the head of the sequenced list is the regex's match.
Afterwards `strptime` builds the datetime, raising ValueError (parse
failure) on out-of-range fields. -/

/-- The numeric value of a digit character, none for non-digits. -/
def digitVal (c : Char) : Option Nat :=
  if c.isDigit then some (c.toNat - 48) else none

/-- `%Y`: exactly four digits. -/
def parseY : List Char → List (Nat × List Char)
  | c1 :: c2 :: c3 :: c4 :: t =>
    match digitVal c1, digitVal c2, digitVal c3, digitVal c4 with
    | some a, some b, some c, some d => [(((a * 10 + b) * 10 + c) * 10 + d, t)]
    | _, _, _, _ => []
  | _ => []

/-- `%m`: `1[0-2]|0[1-9]|[1-9]`. -/
def parseMo : List Char → List (Nat × List Char)
  | c1 :: c2 :: t =>
    (if c1 = '1' then
      match digitVal c2 with
      | some b => if b ≤ 2 then [(10 + b, t)] else []
      | none => []
     else []) ++
    (if c1 = '0' then
      match digitVal c2 with
      | some b => if 1 ≤ b then [(b, t)] else []
      | none => []
     else []) ++
    (match digitVal c1 with
     | some a => if 1 ≤ a then [(a, c2 :: t)] else []
     | none => [])
  | [c1] =>
    match digitVal c1 with
    | some a => if 1 ≤ a then [(a, [])] else []
    | none => []
  | [] => []

/-- `%d`: `3[01]|[1-2]\d|0[1-9]|[1-9]`. -/
def parseDy : List Char → List (Nat × List Char)
  | c1 :: c2 :: t =>
    (if c1 = '3' then
      match digitVal c2 with
      | some b => if b ≤ 1 then [(30 + b, t)] else []
      | none => []
     else []) ++
    (match digitVal c1, digitVal c2 with
     | some a, some b => if 1 ≤ a ∧ a ≤ 2 then [(a * 10 + b, t)] else []
     | _, _ => []) ++
    (if c1 = '0' then
      match digitVal c2 with
      | some b => if 1 ≤ b then [(b, t)] else []
      | none => []
     else []) ++
    (match digitVal c1 with
     | some a => if 1 ≤ a then [(a, c2 :: t)] else []
     | none => [])
  | [c1] =>
    match digitVal c1 with
    | some a => if 1 ≤ a then [(a, [])] else []
    | none => []
  | [] => []

/-- `%H`: `2[0-3]|[0-1]\d|\d`. -/
def parseH : List Char → List (Nat × List Char)
  | c1 :: c2 :: t =>
    (if c1 = '2' then
      match digitVal c2 with
      | some b => if b ≤ 3 then [(20 + b, t)] else []
      | none => []
     else []) ++
    (match digitVal c1, digitVal c2 with
     | some a, some b => if a ≤ 1 then [(a * 10 + b, t)] else []
     | _, _ => []) ++
    (match digitVal c1 with
     | some a => [(a, c2 :: t)]
     | none => [])
  | [c1] =>
    match digitVal c1 with
    | some a => [(a, [])]
    | none => []
  | [] => []

/-- `%M`: `[0-5]\d|\d`. -/
def parseMi : List Char → List (Nat × List Char)
  | c1 :: c2 :: t =>
    (match digitVal c1, digitVal c2 with
     | some a, some b => if a ≤ 5 then [(a * 10 + b, t)] else []
     | _, _ => []) ++
    (match digitVal c1 with
     | some a => [(a, c2 :: t)]
     | none => [])
  | [c1] =>
    match digitVal c1 with
    | some a => [(a, [])]
    | none => []
  | [] => []

/-- `%S`: `6[0-1]|[0-5]\d|\d`. -/
def parseS : List Char → List (Nat × List Char)
  | c1 :: c2 :: t =>
    (if c1 = '6' then
      match digitVal c2 with
      | some b => if b ≤ 1 then [(60 + b, t)] else []
      | none => []
     else []) ++
    (match digitVal c1, digitVal c2 with
     | some a, some b => if a ≤ 5 then [(a * 10 + b, t)] else []
     | _, _ => []) ++
    (match digitVal c1 with
     | some a => [(a, c2 :: t)]
     | none => [])
  | [c1] =>
    match digitVal c1 with
    | some a => [(a, [])]
    | none => []
  | [] => []

/-- The lowercase weekday abbreviations of `%a` (all of length 3, so the
alternation order does not matter for which one matches). -/
def abbrevTable : List (List Char) :=
  [['m','o','n'], ['t','u','e'], ['w','e','d'], ['t','h','u'],
   ['f','r','i'], ['s','a','t'], ['s','u','n']]

/-- `%a`: case-insensitive weekday abbreviation; the value is its index. -/
def parseA : List Char → List (Nat × List Char)
  | a :: b :: c :: t =>
    match abbrevTable.findIdx? (fun w => w = [a.toLower, b.toLower, c.toLower]) with
    | some i => [(i, t)]
    | none => []
  | _ => []

/-- A format directive. -/
inductive Dir
  | lit (c : Char)
  | dirY
  | dirMo
  | dirDy
  | dirH
  | dirMi
  | dirS
  | dirA

/-- The outcome list of one directive, in regex alternation order. -/
def dirParses : Dir → List Char → List (Nat × List Char)
  | .lit ch, cs =>
    match cs with
    | c :: t => if c = ch then [(0, t)] else []
    | [] => []
  | .dirY, cs => parseY cs
  | .dirMo, cs => parseMo cs
  | .dirDy, cs => parseDy cs
  | .dirH, cs => parseH cs
  | .dirMi, cs => parseMi cs
  | .dirS, cs => parseS cs
  | .dirA, cs => parseA cs

/-- All matches of a directive sequence, in backtracking preference
order; each element is the list of directive values plus the unconsumed
suffix. -/
def parseSeq : List Dir → List Char → List (List Nat × List Char)
  | [], cs => [([], cs)]
  | d :: ds, cs =>
    (dirParses d cs).flatMap
      (fun p => (parseSeq ds p.2).map (fun q => (p.1 :: q.1, q.2)))

/-- `"%Y%m%d-%H%M-%a"` (`Config.timestamp_fmt_no_seconds`). -/
def fmtNoSecA : List Dir :=
  [.dirY, .dirMo, .dirDy, .lit '-', .dirH, .dirMi, .lit '-', .dirA]

/-- `"%Y%m%d-%H%M"` (the dayless variant). -/
def fmtNoSec : List Dir := [.dirY, .dirMo, .dirDy, .lit '-', .dirH, .dirMi]

/-- `"%Y%m%d-%H%M%S-%a"` (`Config.timestamp_fmt_with_seconds`). -/
def fmtSecA : List Dir :=
  [.dirY, .dirMo, .dirDy, .lit '-', .dirH, .dirMi, .dirS, .lit '-', .dirA]

/-- `"%Y%m%d-%H%M%S"` (the dayless variant). -/
def fmtSec : List Dir := [.dirY, .dirMo, .dirDy, .lit '-', .dirH, .dirMi, .dirS]

/-- Fold the positional directive values into the datetime fields
(strptime defaults: 1900-01-01 00:00:00). -/
def assembleTS : List Dir → List Nat → DateTimeV → DateTimeV
  | [], _, acc => acc
  | _ :: _, [], acc => acc
  | d :: ds, v :: vs, acc =>
    match d with
    | .dirY => assembleTS ds vs { acc with year := v }
    | .dirMo => assembleTS ds vs { acc with month := v }
    | .dirDy => assembleTS ds vs { acc with day := v }
    | .dirH => assembleTS ds vs { acc with hour := v }
    | .dirMi => assembleTS ds vs { acc with minute := v }
    | .dirS => assembleTS ds vs { acc with second := v }
    | _ => assembleTS ds vs acc

/-- The `datetime.datetime` field validation strptime triggers: the date
must exist and hour/minute/second must be in range (`%S` can match 60 and
61, which the constructor rejects). -/
def validDT (dt : DateTimeV) : Bool :=
  validDate dt.year dt.month dt.day ∧ dt.hour ≤ 23 ∧ dt.minute ≤ 59 ∧
    dt.second ≤ 59

/-- `datetime.strptime(s, fmt)` for the formats used here: take the first
regex match, require it to consume the whole string, and validate the
fields. -/
def strptimeM (dirs : List Dir) (s : String) : Option DateTimeV :=
  match parseSeq dirs s.data with
  | [] => none
  | (vs, rest) :: _ =>
    if rest = [] then
      let dt := assembleTS dirs vs ⟨1900, 1, 1, 0, 0, 0⟩
      if validDT dt then some dt else none
    else none

/-- The separator normalization `re.sub(r'[_ ]', '-', s)` (line 906). -/
def replaceSep (s : String) : String :=
  String.mk (s.data.map (fun c => if c = '_' ∨ c = ' ' then '-' else c))

/-- `parse_timestamp` (line 897): normalize separators, then try the
four formats in source order, returning the first success or none. -/
def parse_timestamp (s0 : String) : Option DateTimeV :=
  let s := replaceSep s0
  match strptimeM fmtNoSecA s with
  | some dt => some dt
  | none =>
    match strptimeM fmtNoSec s with
    | some dt => some dt
    | none =>
      match strptimeM fmtSecA s with
      | some dt => some dt
      | none => strptimeM fmtSec s

/-- A zero-padded two-digit rendering. -/
def digitChar (n : Nat) : Char := Char.ofNat (48 + n)

def pad2 (n : Nat) : List Char := [digitChar (n / 10), digitChar (n % 10)]

def pad4 (n : Nat) : List Char :=
  [digitChar (n / 1000), digitChar (n / 100 % 10), digitChar (n / 10 % 10),
   digitChar (n % 10)]

/-- Render `YYYYmmdd(sep)HHMM[SS][(sep)aaa]` with the given separators. -/
def renderTS (y mo d hh mi : Nat) (sec : Option Nat) (sep1 sep2 : Char)
    (wd : Option (List Char)) : String :=
  String.mk (pad4 y ++ pad2 mo ++ pad2 d ++ sep1 :: (pad2 hh ++ pad2 mi ++
    (match sec with | some s => pad2 s | none => []) ++
    (match wd with | some w => sep2 :: w | none => [])))

/-- Decidable equality on `Except`, for evaluating the models on concrete
inputs. -/
instance {ε α : Type} [DecidableEq ε] [DecidableEq α] : DecidableEq (Except ε α) :=
  fun a b =>
    match a, b with
    | .ok x, .ok y =>
      if h : x = y then .isTrue (by rw [h])
      else .isFalse (by intro hc; cases hc; exact h rfl)
    | .ok _, .error _ => .isFalse (by intro hc; cases hc)
    | .error _, .ok _ => .isFalse (by intro hc; cases hc)
    | .error x, .error y =>
      if h : x = y then .isTrue (by rw [h])
      else .isFalse (by intro hc; cases hc; exact h rfl)

/-! ## Theorems -/

/-! ### C4: the S1 spoken timestamp -/

/-- C4: `words_to_timestamp` on the transcript "nineteen thirty eight
wednesday may nineteenth two thousand and twenty one" returns
2021-05-19 19:38:00 with no extra words. -/
theorem C4_spoken_timestamp_S1 :
    words_to_timestamp
      "nineteen thirty eight wednesday may nineteenth two thousand and twenty one" =
      .ok (⟨2021, 5, 19, 19, 38, 0⟩, []) := by
  decide

/-! ### C8 and C10: month requirement and empty time section -/

/-- When no word is a weekday or month name, the splitting scan fails. -/
theorem splitIdx_eq_none {ws : List String}
    (h : ∀ w ∈ ws, isDateWord w = false) : splitIdx ws = none := by
  induction ws with
  | nil => rfl
  | cons w t ih =>
    have hw := h w (List.mem_cons_self w t)
    have ht : splitIdx t = none := ih (fun x hx => h x (List.mem_cons_of_mem w hx))
    simp [splitIdx, hw, ht]

/-- C8: a transcript with neither a month name nor a weekday name makes
`words_to_timestamp` raise `TimestampGrokError`; but the claim also covers
transcripts with a weekday and no month, and there the source instead hits
`assert False` in `grok_date_words` and raises AssertionError. -/
theorem C8_no_month_name_error :
    (∀ ws : List String, (∀ w ∈ ws, isDateWord w = false) →
      words_to_timestamp_words ws = .error .timestampGrok)
    ∧ words_to_timestamp "wednesday nineteenth two thousand" =
        .error .assertionFail := by
  constructor
  · intro ws h
    unfold words_to_timestamp_words
    rw [splitIdx_eq_none h]
  · decide

/-- C8 witness: the universal part applied to a concrete month-free,
weekday-free transcript. -/
theorem C8_no_month_name_witness :
    words_to_timestamp_words ["hello", "world"] = .error .timestampGrok :=
  C8_no_month_name_error.1 ["hello", "world"] (by decide)

/-- C10: if the transcript starts with a month or weekday name then the
time-word section is empty, and any successful parse yields hour, minute
and second all 0; and `grok_digit_pair` returns 0 without consuming
anything whenever the head word is not a number word. -/
theorem C10_empty_time_words_zero :
    (∀ (w : String) (ws : List String) (dt : DateTimeV) (extra : List String),
      isDateWord w = true →
      words_to_timestamp_words (w :: ws) = .ok (dt, extra) →
      dt.hour = 0 ∧ dt.minute = 0 ∧ dt.second = 0)
    ∧ (∀ (w : String) (ws : List String), to_num w = none →
        grok_digit_pair (w :: ws) = (0, w :: ws)) := by
  constructor
  · intro w ws dt extra hw hok
    unfold words_to_timestamp_words at hok
    simp only [splitIdx, hw, if_true, List.take_zero, List.drop_zero] at hok
    cases hgd : grok_date_words (w :: ws) with
    | error e => rw [hgd] at hok; simp at hok
    | ok v =>
      obtain ⟨y, mo, d, dow, extra'⟩ := v
      rw [hgd] at hok
      dsimp only at hok
      split at hok
      · cases hok
        exact ⟨rfl, rfl, rfl⟩
      · cases hok
  · intro w ws h
    simp [grok_digit_pair, h]

/-- C10 witness: a transcript starting with a month name parses with a
zero time of day, and a concrete non-number word leaves
`grok_digit_pair` inert. -/
theorem C10_empty_time_words_witness :
    ((⟨2000, 5, 19, 0, 0, 0⟩ : DateTimeV).hour = 0 ∧
      (⟨2000, 5, 19, 0, 0, 0⟩ : DateTimeV).minute = 0 ∧
      (⟨2000, 5, 19, 0, 0, 0⟩ : DateTimeV).second = 0) ∧
    grok_digit_pair ["wednesday"] = (0, ["wednesday"]) :=
  ⟨C10_empty_time_words_zero.1 "may" ["nineteenth", "two", "thousand"]
      ⟨2000, 5, 19, 0, 0, 0⟩ [] (by decide) (by decide),
   C10_empty_time_words_zero.2 "wednesday" [] (by decide)⟩

/-! ### C7: likely-audio-span selection -/

/-- The selection loop is `List.find?` over the inverted silences. -/
theorem pickAudioSpan_eq_find? (l : List TimeRangeQ) :
    pickAudioSpan l =
      match l.find? (fun r => decide (min_talk_duration_s ≤ r.duration)) with
      | some r =>
        .ok ⟨max 0 (r.start - talk_attack_s),
             min (r.duration + talk_attack_s + talk_release_s) max_talk_duration_s⟩
      | none => .error () := by
  induction l with
  | nil => rfl
  | cons r rs ih =>
    by_cases h : min_talk_duration_s ≤ r.duration
    · simp [pickAudioSpan, List.find?, h]
    · simp [pickAudioSpan, List.find?, h, ih]

/-- C7: `find_likely_audio_span` returns the first inverted-silence span
of duration at least 2.5 s, with its start pulled back 0.2 s (clamped at
0) and its duration widened by 0.2 s + 0.2 s then capped at 15 s, and
fails with `NoSuitableAudioSpan` exactly when no span qualifies. -/
theorem C7_find_likely_audio_span_spec :
    ∀ (silences : List TimeRangeQ) (scan_to_s : ℚ),
      (find_likely_audio_span silences scan_to_s =
        match (invert_silences silences scan_to_s).find?
            (fun r => decide (min_talk_duration_s ≤ r.duration)) with
        | some r =>
          .ok ⟨max 0 (r.start - talk_attack_s),
               min (r.duration + talk_attack_s + talk_release_s) max_talk_duration_s⟩
        | none => .error ()) ∧
      (find_likely_audio_span silences scan_to_s = .error () ↔
        ∀ r ∈ invert_silences silences scan_to_s, r.duration < min_talk_duration_s) := by
  intro silences scan
  have hmain := pickAudioSpan_eq_find? (invert_silences silences scan)
  refine ⟨hmain, ?_⟩
  rw [find_likely_audio_span, hmain]
  cases hf : (invert_silences silences scan).find?
      (fun r => decide (min_talk_duration_s ≤ r.duration)) with
  | none =>
    simp only [List.find?_eq_none] at hf
    constructor
    · intro _ r hr
      have := hf r hr
      simpa using this
    · intro _
      rfl
  | some r =>
    have hr := List.find?_some hf
    have hmem := List.mem_of_find?_eq_some hf
    simp only [decide_eq_true_eq] at hr
    constructor
    · intro hcontra
      cases hcontra
    · intro hall
      exact absurd hr (not_le.mpr (hall r hmem))

/-! ### C3: PAR2 block sizing -/

/-- C3: for every source size, volume count and redundancy percentage the
chosen block size is the least positive multiple of 4096 that is at least
`min_blocksize = (S*V*R/100)/10000` (so 4096 whenever that quotient is
below 4096), and the S4 scenario S = 2^30, V = 2, R = 5 yields 12288. -/
theorem C3_par2_blocksize_least :
    (∀ S V R : Nat,
      IsLeast {m : Int | 0 < m ∧ 4096 ∣ m ∧ par2_min_blocksize S V R ≤ m}
        (par2_blocksize S V R)) ∧
    par2_blocksize (2 ^ 30) 2 5 = 12288 := by
  constructor
  · intro S V R
    set b : Int := par2_min_blocksize S V R with hb
    have hb0 : 0 ≤ b := by
      rw [hb]
      unfold par2_min_blocksize
      rw [Int.fdiv_eq_ediv _ (by norm_num : (0:Int) ≤ 100),
        Int.fdiv_eq_ediv _ (by norm_num : (0:Int) ≤ 10000)]
      have : (0:Int) ≤ (S * V * R : Int) := by positivity
      exact Int.ediv_nonneg (Int.ediv_nonneg this (by norm_num)) (by norm_num)
    have hkey : par2_blocksize S V R =
        if -((-b) / 4096) * 4096 ≠ 0 then -((-b) / 4096) * 4096 else 4096 := by
      show get_nearest_n b 4096 = _
      unfold get_nearest_n
      rw [Int.fdiv_eq_ediv _ (by norm_num : (0:Int) ≤ 4096)]
    rw [hkey]
    by_cases hc : -((-b) / 4096) * 4096 = 0
    · rw [if_neg (by simpa using hc)]
      constructor
      · exact ⟨by norm_num, ⟨1, by norm_num⟩, by omega⟩
      · rintro m ⟨hm0, ⟨k, rfl⟩, hbm⟩
        omega
    · rw [if_pos hc]
      constructor
      · exact ⟨by omega, ⟨-((-b) / 4096), by ring⟩, by omega⟩
      · rintro m ⟨hm0, ⟨k, rfl⟩, hbm⟩
        omega
  · decide

/-! ### C1: cross-queue token synchronization -/

/-- Membership in the folded intersection of pending sets. -/
theorem mem_foldl_inter (t : StepToken) :
    ∀ (l : List QState) (acc : Finset StepToken),
      (t ∈ l.foldl (fun a r => a ∩ r.pending) acc ↔
        t ∈ acc ∧ ∀ r ∈ l, t ∈ r.pending) := by
  intro l
  induction l with
  | nil => intro acc; simp
  | cons q l ih =>
    intro acc
    rw [List.foldl_cons, ih (acc ∩ q.pending)]
    simp only [Finset.mem_inter, List.mem_cons]
    constructor
    · rintro ⟨⟨h1, h2⟩, h3⟩
      exact ⟨h1, fun r hr => by rcases hr with rfl | hr; exact h2; exact h3 r hr⟩
    · rintro ⟨h1, h2⟩
      exact ⟨⟨h1, h2 q (Or.inl rfl)⟩, fun r hr => h2 r (Or.inr hr)⟩

/-- Protocol invariant: every pending token was produced by its queue. -/
theorem reach_pending_sub_produced {qs : List QState} (h : ReachStepper qs) :
    ∀ q ∈ qs, ∀ x ∈ q.pending, x ∈ q.produced := by
  induction h with
  | init k =>
    intro q hq x hx
    rw [List.eq_of_mem_replicate hq] at hx
    simp at hx
  | @read qs qs' i t _ hrc ih =>
    intro q hq x hx
    unfold readComplete at hrc
    cases hqi : qs[i]? with
    | none => rw [hqi] at hrc; cases hrc
    | some q0 =>
      rw [hqi] at hrc
      dsimp only at hrc
      by_cases hdup : t ∈ q0.pending
      · rw [if_pos hdup] at hrc; cases hrc
      · rw [if_neg hdup] at hrc
        cases hrc
        rcases List.mem_or_eq_of_mem_set hq with hq' | rfl
        · exact ih q hq' x hx
        · have hq0mem : q0 ∈ qs := List.getElem?_mem hqi
          simp only [Finset.mem_insert] at hx
          rcases hx with rfl | hx
          · simp
          · exact List.mem_append_left _ (ih q0 hq0mem x hx)
  | @deliver qs t _ _ ih =>
    intro q hq x hx
    unfold deliverToken at hq
    rw [List.mem_map] at hq
    obtain ⟨q0, hq0, rfl⟩ := hq
    exact ih q0 hq0 x (Finset.mem_of_mem_erase hx)

/-- C1: in any reachable state of a stepper with at least one pull_from
queue, a token ready for delivery (in the intersection of the pending
sets) is pending on, and was produced by, every one of the queues, and
the delivery removes it from every pending set: no token is delivered on
fewer than k upstream productions. -/
theorem C1_token_delivery_requires_all_queues
    {qs : List QState} {t : StepToken}
    (hreach : ReachStepper qs) (hne : qs ≠ [])
    (hready : t ∈ interPending qs) :
    (∀ q ∈ qs, t ∈ q.pending ∧ t ∈ q.produced) ∧
    (∀ q ∈ deliverToken qs t, t ∉ q.pending) := by
  have hpend : ∀ q ∈ qs, t ∈ q.pending := by
    cases qs with
    | nil => cases hne rfl
    | cons q0 rest =>
      intro q hq
      unfold interPending at hready
      rw [mem_foldl_inter] at hready
      rcases List.mem_cons.mp hq with rfl | hq'
      · exact hready.1
      · exact hready.2 q hq'
  refine ⟨fun q hq => ⟨hpend q hq,
    reach_pending_sub_produced hreach q hq t (hpend q hq)⟩, ?_⟩
  intro q hq
  unfold deliverToken at hq
  rw [List.mem_map] at hq
  obtain ⟨q0, _, rfl⟩ := hq
  exact Finset.not_mem_erase t _

/-- C1 witness: two queues that have each produced token 0; the theorem
applies to the reachable state after both reads, and delivery clears the
pending sets. -/
theorem C1_token_delivery_witness :
    (∀ q ∈ ([⟨[some 0], {some 0}⟩, ⟨[some 0], {some 0}⟩] : List QState),
      some 0 ∈ q.pending ∧ some 0 ∈ q.produced) ∧
    (∀ q ∈ deliverToken
        ([⟨[some 0], {some 0}⟩, ⟨[some 0], {some 0}⟩] : List QState) (some 0),
      some 0 ∉ q.pending) :=
  C1_token_delivery_requires_all_queues
    (@ReachStepper.read
      [⟨[some 0], {some 0}⟩, ⟨[], ∅⟩]
      [⟨[some 0], {some 0}⟩, ⟨[some 0], {some 0}⟩]
      1 (some 0)
      (@ReachStepper.read
        (List.replicate 2 ⟨[], ∅⟩)
        [⟨[some 0], {some 0}⟩, ⟨[], ∅⟩]
        0 (some 0)
        (ReachStepper.init 2)
        (by decide))
      (by decide))
    (by decide) (by decide)

/-! ### C5: the reorder step is an unimplemented stub -/

/-- C5 (code bug): the reorder step emits nothing, for every arrival
sequence, so the claimed behaviour — re-emitting the received tokens in
strictly ascending order with the end token last — fails on the claim's
own instance: the arrival order 2,0,3,1,end produces no emissions at
all, not 0,1,2,3,end. -/
theorem C5_reorder_stub_emits_nothing :
    (∀ arrivals : List StepToken, reorder arrivals = []) ∧
    reorder [some 2, some 0, some 3, some 1, none] ≠
      [some 0, some 1, some 2, some 3, none] :=
  ⟨fun _ => rfl, by decide⟩

/-! ### C6: the AudioInfo sidecar round trip -/

/-- C6 (code bug): writing an `AudioInfo` whose `speech_range` is a
`TimeRange` (and whose `parsed_timestamp` is a datetime) to the progress
sidecar and reading it back does not return an equal value: the encoder's
`dataclasses.asdict` call flattens the nested `TimeRange` into a plain
dict with no `__dataclass__` tag, so the decoder leaves it as a dict.
The datetime survives (it is re-tagged by the encoder's `default` hook),
so the failure is precisely the nested dataclass field. -/
theorem C6_audioinfo_roundtrip_bug :
    json_roundtrip
        (.audioInfo (.pnum 30) (.timeRange (.pnum 2) (.pnum (5 / 2)))
          (.pstr "nineteen thirty eight") (.pdt 1621451880) (.plist [])) =
      .audioInfo (.pnum 30)
        (.pdict [("start", .pnum 2), ("duration", .pnum (5 / 2))])
        (.pstr "nineteen thirty eight") (.pdt 1621451880) (.plist []) ∧
    (.audioInfo (.pnum 30)
        (.pdict [("start", .pnum 2), ("duration", .pnum (5 / 2))])
        (.pstr "nineteen thirty eight") (.pdt 1621451880) (.plist []) : Py) ≠
      .audioInfo (.pnum 30) (.timeRange (.pnum 2) (.pnum (5 / 2)))
        (.pstr "nineteen thirty eight") (.pdt 1621451880) (.plist []) := by
  refine ⟨rfl, ?_⟩
  intro h
  injection h with h1 h2 h3 h4 h5
  exact Py.noConfusion h2

/-! ### C2: the xdelta verification predicate -/

/-- The header loop is the dict fold over the colon-line prefix, with the
break line and unread tail taken from the rest. -/
theorem processVcdiffHeaders_span :
    ∀ (lines : List String) (dict : List (String × Option String)),
      processVcdiffHeaders dict lines =
        match foldHdr dict (lines.takeWhile (fun l => isColonLine l)) with
        | .error e => .error e
        | .ok d' =>
          .ok (d', brkOf (lines.dropWhile (fun l => isColonLine l)),
            tailOf (lines.dropWhile (fun l => isColonLine l))) := by
  intro lines
  induction lines with
  | nil => intro dict; rfl
  | cons l ls ih =>
    intro dict
    by_cases hblank : pyStrip l = ""
    · have hcol : isColonLine l = false := by
        simp [isColonLine, hblank]
      rw [processVcdiffHeaders]
      rw [if_pos hblank]
      rw [List.takeWhile_cons, List.dropWhile_cons]
      rw [hcol]
      simp only [Bool.false_eq_true, if_false, foldHdr, brkOf, tailOf, hblank]
    · cases hsc : splitColon (pyStrip l) with
      | none =>
        have hcol : isColonLine l = false := by
          simp [isColonLine, hsc]
        rw [processVcdiffHeaders, if_neg hblank, hsc]
        rw [List.takeWhile_cons, List.dropWhile_cons, hcol]
        simp only [Bool.false_eq_true, if_false, foldHdr, brkOf, tailOf]
      | some kv =>
        obtain ⟨k, rv⟩ := kv
        have hcol : isColonLine l = true := by
          simp [isColonLine, hblank, hsc]
        rw [processVcdiffHeaders, if_neg hblank, hsc]
        rw [List.takeWhile_cons, List.dropWhile_cons, hcol]
        simp only [if_true]
        rw [foldHdr, hsc]
        cases hstep : stepVcdiffDict dict k (pyStrip rv) with
        | ok d' => simp only [hstep, ih d']
        | error e => simp only [hstep]

/-- `stepVcdiffDict` on a key absent from the dict: no change. -/
theorem stepVcdiffDict_absent :
    ∀ (dict : List (String × Option String)) (k val : String),
      dictLookup k dict = none → stepVcdiffDict dict k val = .ok dict := by
  intro dict
  induction dict with
  | nil => intro k val _; rfl
  | cons kv t ih =>
    intro k val h
    obtain ⟨k', v⟩ := kv
    rw [dictLookup] at h
    by_cases hk : k' = k
    · rw [if_pos hk] at h; cases h
    · rw [if_neg hk] at h
      simp [stepVcdiffDict, hk, ih k val h]

/-- `stepVcdiffDict` on a key still expecting its value: found and
marked, when the value agrees. -/
theorem stepVcdiffDict_found :
    ∀ (dict : List (String × Option String)) (k val : String),
      (dict.map Prod.fst).Nodup →
      dictLookup k dict = some (some val) →
      stepVcdiffDict dict k val = .ok (dictSetNone k dict) := by
  intro dict
  induction dict with
  | nil => intro k val _ h; cases h
  | cons kv t ih =>
    intro k val hnodup h
    obtain ⟨k', v⟩ := kv
    rw [dictLookup] at h
    have htnodup : (t.map Prod.fst).Nodup :=
      (List.nodup_cons.mp (by simpa using hnodup)).2
    by_cases hk : k' = k
    · rw [if_pos hk] at h
      cases h
      subst hk
      have hkabs : ∀ kv ∈ t, kv.1 ≠ k' := by
        intro kv hkv hc
        have hmem : k' ∈ t.map Prod.fst := hc ▸ List.mem_map_of_mem Prod.fst hkv
        exact (List.nodup_cons.mp (by simpa using hnodup)).1 hmem
      have htail : (t.map fun kv => if kv.1 = k' then (kv.1, none) else kv) = t := by
        conv_rhs => rw [← List.map_id t]
        apply List.map_congr_left
        intro kv hkv
        simp [hkabs kv hkv]
      simp [stepVcdiffDict, dictSetNone, htail]
    · rw [if_neg hk] at h
      simp [stepVcdiffDict, hk, ih k val htnodup h, dictSetNone]

/-- `stepVcdiffDict` errors on a wrong value for an expected key. -/
theorem stepVcdiffDict_wrong :
    ∀ (dict : List (String × Option String)) (k val v : String),
      dictLookup k dict = some (some v) → v ≠ val →
      stepVcdiffDict dict k val = .error "keyValue" := by
  intro dict
  induction dict with
  | nil => intro k val v h _; cases h
  | cons kv t ih =>
    intro k val v h hne
    obtain ⟨k', w⟩ := kv
    rw [dictLookup] at h
    by_cases hk : k' = k
    · rw [if_pos hk] at h
      cases h
      simp [stepVcdiffDict, hk, hne]
    · rw [if_neg hk] at h
      simp [stepVcdiffDict, hk, ih k val v h hne]

/-- `stepVcdiffDict` errors on a key already found (second occurrence). -/
theorem stepVcdiffDict_dup :
    ∀ (dict : List (String × Option String)) (k val : String),
      dictLookup k dict = some none →
      stepVcdiffDict dict k val = .error "keyValue" := by
  intro dict
  induction dict with
  | nil => intro k val h; cases h
  | cons kv t ih =>
    intro k val h
    obtain ⟨k', w⟩ := kv
    rw [dictLookup] at h
    by_cases hk : k' = k
    · rw [if_pos hk] at h
      cases h
      simp [stepVcdiffDict, hk]
    · rw [if_neg hk] at h
      simp [stepVcdiffDict, hk, ih k val h]

/-- A key with no lookup result is no entry's key. -/
theorem dictLookup_none :
    ∀ (d : List (String × Option String)) (k : String),
      dictLookup k d = none → ∀ kv ∈ d, kv.1 ≠ k := by
  intro d
  induction d with
  | nil => intro k _ kv hkv; cases hkv
  | cons e t ih =>
    intro k h kv hkv
    obtain ⟨k', v⟩ := e
    rw [dictLookup] at h
    by_cases hk : k' = k
    · rw [if_pos hk] at h; cases h
    · rw [if_neg hk] at h
      rcases List.mem_cons.mp hkv with rfl | hkv'
      · exact hk
      · exact ih k h kv hkv'

/-- A successful lookup result is an entry. -/
theorem dictLookup_mem :
    ∀ (d : List (String × Option String)) (k : String) (w : Option String),
      dictLookup k d = some w → (k, w) ∈ d := by
  intro d
  induction d with
  | nil => intro k w h; cases h
  | cons e t ih =>
    intro k w h
    obtain ⟨k', v⟩ := e
    rw [dictLookup] at h
    by_cases hk : k' = k
    · rw [if_pos hk] at h
      cases h
      subst hk
      exact List.mem_cons_self _ _
    · rw [if_neg hk] at h
      exact List.mem_cons_of_mem _ (ih k w h)

/-- With nodup keys, membership determines the lookup. -/
theorem dictLookup_of_mem_nodup :
    ∀ (d : List (String × Option String)) (k : String) (w : Option String),
      (d.map Prod.fst).Nodup → (k, w) ∈ d → dictLookup k d = some w := by
  intro d
  induction d with
  | nil => intro k w _ h; cases h
  | cons e t ih =>
    intro k w hnodup h
    obtain ⟨k', v⟩ := e
    rcases List.mem_cons.mp h with heq | hmem
    · cases heq
      rw [dictLookup, if_pos rfl]
    · rw [dictLookup]
      by_cases hk : k' = k
      · subst hk
        exfalso
        have : k' ∈ t.map Prod.fst := List.mem_map_of_mem Prod.fst hmem
        exact (List.nodup_cons.mp (by simpa using hnodup)).1 this
      · rw [if_neg hk]
        exact ih k w (List.nodup_cons.mp (by simpa using hnodup)).2 hmem

/-- Marking a key as found does not change the key list. -/
theorem dictSetNone_keys (k : String) (d : List (String × Option String)) :
    (dictSetNone k d).map Prod.fst = d.map Prod.fst := by
  unfold dictSetNone
  rw [List.map_map]
  apply List.map_congr_left
  intro kv _
  by_cases hk : kv.1 = k
  · simp [hk]
  · simp [hk]

/-- `countP` over a cons whose head fails the predicate. -/
theorem countP_cons_false {α : Type} (p : α → Bool) (a : α) (l : List α)
    (h : p a = false) : (a :: l).countP p = l.countP p := by
  simp [List.countP_cons, h]

/-- `countP` over a cons whose head satisfies the predicate. -/
theorem countP_cons_true {α : Type} (p : α → Bool) (a : α) (l : List α)
    (h : p a = true) : (a :: l).countP p = l.countP p + 1 := by
  simp [List.countP_cons, h]

/-- The header fold succeeds with every expected field found iff each
still-expected key occurs exactly once with its expected value among the
header lines, and each already-found key does not occur again. -/
theorem foldHdr_ok_iff :
    ∀ (hdr : List String) (dict : List (String × Option String)),
      (dict.map Prod.fst).Nodup →
      ((∃ d', foldHdr dict hdr = .ok d' ∧ ∀ kv ∈ d', kv.2 = none) ↔
        ∀ kv ∈ dict,
          match kv.2 with
          | some v =>
            hdr.countP (fun x => decide (keyOf x = some kv.1)) = 1 ∧
              ∀ x ∈ hdr, keyOf x = some kv.1 → valOf x = v
          | none => hdr.countP (fun x => decide (keyOf x = some kv.1)) = 0) := by
  intro hdr
  induction hdr with
  | nil =>
    intro dict _
    constructor
    · rintro ⟨d', hfold, hall⟩ kv hkv
      rw [foldHdr] at hfold
      cases hfold
      have h2 := hall kv hkv
      rw [h2]
      simp
    · intro hall
      refine ⟨dict, rfl, ?_⟩
      intro kv hkv
      have h2 := hall kv hkv
      cases hv : kv.2 with
      | none => rfl
      | some v =>
        rw [hv] at h2
        simp at h2
  | cons l ls ih =>
    intro dict hnodup
    cases hsc : splitColon (pyStrip l) with
    | none =>
      have hkey : keyOf l = none := by simp [keyOf, hsc]
      have hfold : foldHdr dict (l :: ls) = foldHdr dict ls := by
        rw [foldHdr, hsc]
      rw [hfold, ih dict hnodup]
      apply forall₂_congr
      intro kv hkv
      have hpred : (decide (keyOf l = some kv.1)) = false := by
        simp [hkey]
      cases kv.2 with
      | some v =>
        rw [countP_cons_false (fun x => decide (keyOf x = some kv.1)) l ls hpred]
        constructor
        · rintro ⟨h1, h2⟩
          refine ⟨h1, fun x hx => ?_⟩
          rcases List.mem_cons.mp hx with rfl | hx'
          · intro hcon; rw [hkey] at hcon; cases hcon
          · exact h2 x hx'
        · rintro ⟨h1, h2⟩
          exact ⟨h1, fun x hx => h2 x (List.mem_cons_of_mem l hx)⟩
      | none =>
        rw [countP_cons_false (fun x => decide (keyOf x = some kv.1)) l ls hpred]
    | some kr =>
      obtain ⟨k, rv⟩ := kr
      have hkey : keyOf l = some k := by simp [keyOf, hsc]
      have hval : valOf l = pyStrip rv := by simp [valOf, hsc]
      have hfold : foldHdr dict (l :: ls) =
          match stepVcdiffDict dict k (pyStrip rv) with
          | .ok d' => foldHdr d' ls
          | .error e => .error e := by
        rw [foldHdr, hsc]
      cases hlk : dictLookup k dict with
      | none =>
        rw [hfold, stepVcdiffDict_absent dict k (pyStrip rv) hlk]
        rw [ih dict hnodup]
        apply forall₂_congr
        intro kv hkv
        have hne : kv.1 ≠ k := dictLookup_none dict k hlk kv hkv
        have hpred : (decide (keyOf l = some kv.1)) = false := by
          simp only [hkey, decide_eq_false_iff_not]
          intro hcon
          cases hcon
          exact hne rfl
        cases kv.2 with
        | some v =>
          rw [countP_cons_false (fun x => decide (keyOf x = some kv.1)) l ls hpred]
          constructor
          · rintro ⟨h1, h2⟩
            refine ⟨h1, fun x hx => ?_⟩
            rcases List.mem_cons.mp hx with rfl | hx'
            · intro hcon
              rw [hkey] at hcon
              cases hcon
              exact absurd rfl hne
            · exact h2 x hx'
          · rintro ⟨h1, h2⟩
            exact ⟨h1, fun x hx => h2 x (List.mem_cons_of_mem l hx)⟩
        | none =>
          rw [countP_cons_false (fun x => decide (keyOf x = some kv.1)) l ls hpred]
      | some entry =>
        have hmemk : (k, entry) ∈ dict := dictLookup_mem dict k entry hlk
        cases entry with
        | some v =>
          by_cases hv : v = pyStrip rv
          · subst hv
            rw [hfold, stepVcdiffDict_found dict k (pyStrip rv) hnodup hlk]
            have hnodup' : ((dictSetNone k dict).map Prod.fst).Nodup := by
              rw [dictSetNone_keys]
              exact hnodup
            rw [ih (dictSetNone k dict) hnodup']
            constructor
            · intro hall kv hkv
              by_cases hk1 : kv.1 = k
              · have hkv2 : kv.2 = some (pyStrip rv) := by
                  have hl2 := dictLookup_of_mem_nodup dict k kv.2 hnodup
                    (by rw [← hk1]; exact hkv)
                  rw [hlk] at hl2
                  exact (Option.some_injective _ hl2).symm
                have hknone : ((k, none) : String × Option String) ∈
                    dictSetNone k dict := by
                  unfold dictSetNone
                  have hm := List.mem_map_of_mem
                    (fun kv : String × Option String =>
                      if kv.1 = k then (kv.1, none) else kv) hkv
                  simpa [hk1] using hm
                have hcount0 := hall (k, none) hknone
                simp only at hcount0
                rw [hkv2]
                have hpredl : (decide (keyOf l = some kv.1)) = true := by
                  simp [hkey, hk1]
                have hzero : ls.countP (fun x => decide (keyOf x = some kv.1)) = 0 := by
                  rw [hk1]
                  exact hcount0
                refine ⟨?_, ?_⟩
                · rw [countP_cons_true (fun x => decide (keyOf x = some kv.1)) l ls hpredl, hzero]
                · intro x hx hkx
                  rcases List.mem_cons.mp hx with rfl | hx'
                  · exact hval
                  · exfalso
                    have hnp := List.countP_eq_zero.mp hzero x hx'
                    simp only [decide_eq_true_eq] at hnp
                    exact hnp hkx
              · have hmem' : kv ∈ dictSetNone k dict := by
                  unfold dictSetNone
                  have hm := List.mem_map_of_mem
                    (fun kv : String × Option String =>
                      if kv.1 = k then (kv.1, none) else kv) hkv
                  simpa [hk1] using hm
                have hthis := hall kv hmem'
                have hpredl : (decide (keyOf l = some kv.1)) = false := by
                  simp only [hkey, decide_eq_false_iff_not]
                  intro hcon
                  cases hcon
                  exact hk1 rfl
                cases hkv2 : kv.2 with
                | some w =>
                  rw [hkv2] at hthis
                  simp only at hthis
                  rw [countP_cons_false (fun x => decide (keyOf x = some kv.1)) l ls hpredl]
                  refine ⟨hthis.1, fun x hx hkx => ?_⟩
                  rcases List.mem_cons.mp hx with rfl | hx'
                  · exfalso
                    rw [hkey] at hkx
                    cases hkx
                    exact hk1 rfl
                  · exact hthis.2 x hx' hkx
                | none =>
                  rw [hkv2] at hthis
                  simp only at hthis
                  rw [countP_cons_false (fun x => decide (keyOf x = some kv.1)) l ls hpredl]
                  exact hthis
            · intro hall kv' hkv'
              unfold dictSetNone at hkv'
              rw [List.mem_map] at hkv'
              obtain ⟨kv, hkv, hkveq⟩ := hkv'
              by_cases hk1 : kv.1 = k
              · rw [if_pos hk1] at hkveq
                subst hkveq
                show List.countP (fun x => decide (keyOf x = some kv.1)) ls = 0
                have hkv2 : kv.2 = some (pyStrip rv) := by
                  have hl2 := dictLookup_of_mem_nodup dict k kv.2 hnodup
                    (by rw [← hk1]; exact hkv)
                  rw [hlk] at hl2
                  exact (Option.some_injective _ hl2).symm
                have hthis := hall kv hkv
                rw [hkv2] at hthis
                simp only at hthis
                have hpredl : (decide (keyOf l = some kv.1)) = true := by
                  simp [hkey, hk1]
                have h1 := hthis.1
                rw [countP_cons_true (fun x => decide (keyOf x = some kv.1)) l ls hpredl] at h1
                omega
              · rw [if_neg hk1] at hkveq
                subst hkveq
                have hthis := hall kv hkv
                have hpredl : (decide (keyOf l = some kv.1)) = false := by
                  simp only [hkey, decide_eq_false_iff_not]
                  intro hcon
                  cases hcon
                  exact hk1 rfl
                cases hkv2 : kv.2 with
                | some w =>
                  rw [hkv2] at hthis
                  simp only at hthis
                  show List.countP (fun x => decide (keyOf x = some kv.1)) ls = 1 ∧
                    ∀ x ∈ ls, keyOf x = some kv.1 → valOf x = w
                  obtain ⟨h1, h2⟩ := hthis
                  rw [countP_cons_false (fun x => decide (keyOf x = some kv.1)) l ls hpredl] at h1
                  exact ⟨h1, fun x hx hkx => h2 x (List.mem_cons_of_mem l hx) hkx⟩
                | none =>
                  rw [hkv2] at hthis
                  simp only at hthis
                  show List.countP (fun x => decide (keyOf x = some kv.1)) ls = 0
                  rw [countP_cons_false (fun x => decide (keyOf x = some kv.1)) l ls hpredl] at hthis
                  exact hthis
          · rw [hfold, stepVcdiffDict_wrong dict k (pyStrip rv) v hlk hv]
            constructor
            · rintro ⟨d', hfold', _⟩
              cases hfold'
            · intro hall
              exfalso
              have hthis := hall (k, some v) hmemk
              simp only at hthis
              have hvv := hthis.2 l (List.mem_cons_self l ls) (by rw [hkey])
              rw [hval] at hvv
              exact hv hvv.symm
        | none =>
          rw [hfold, stepVcdiffDict_dup dict k (pyStrip rv) hlk]
          constructor
          · rintro ⟨d', hfold', _⟩
            cases hfold'
          · intro hall
            exfalso
            have hthis := hall (k, none) hmemk
            simp only at hthis
            have hpredl : (decide (keyOf l = some k)) = true := by
              simp [hkey]
            rw [countP_cons_true (fun x => decide (keyOf x = some k)) l ls hpredl] at hthis
            omega

/-- Splitting `takeWhile`/`dropWhile` at an explicit breaking element. -/
theorem takeWhile_dropWhile_split {α : Type} (p : α → Bool) :
    ∀ (a : List α) (b : α) (c : List α), (∀ x ∈ a, p x = true) → p b = false →
      (a ++ b :: c).takeWhile p = a ∧ (a ++ b :: c).dropWhile p = b :: c := by
  intro a
  induction a with
  | nil =>
    intro b c _ hb
    simp [List.takeWhile_cons, List.dropWhile_cons, hb]
  | cons x t ih =>
    intro b c ha hb
    have hx : p x = true := ha x (List.mem_cons_self x t)
    have ht := ih b c (fun y hy => ha y (List.mem_cons_of_mem x hy)) hb
    simp only [List.cons_append, List.takeWhile_cons, List.dropWhile_cons, hx,
      if_true, ht.1, ht.2]
    exact ⟨trivial, trivial⟩

/-- The column-header row is not a consumable header line. -/
theorem colHeader_not_colonLine {h1 : String} (h : pyStrip h1 = vcdiffColumnHeader) :
    isColonLine h1 = false := by
  have hsc : splitColon vcdiffColumnHeader = none := by decide
  simp [isColonLine, h, hsc]

/-- The nodup keys of the expectation dict. -/
theorem initVcdiffDict_keys_nodup (es : Nat) :
    ((initVcdiffDict es).map Prod.fst).Nodup := by
  show (List.map Prod.fst (List.map _ (requiredVcdiffs es))).Nodup
  rw [List.map_map]
  show List.Nodup ["VCDIFF header indicator", "VCDIFF copy window length",
    "VCDIFF copy window offset", "VCDIFF target window length",
    "VCDIFF data section length"]
  decide

/-- The fold-success condition expressed over the required field list. -/
theorem foldHdr_ok_iff_headerSection (es : Nat) (hdr : List String)
    (hcolon : ∀ l ∈ hdr, isColonLine l = true) :
    (∃ d', foldHdr (initVcdiffDict es) hdr = .ok d' ∧ ∀ kv ∈ d', kv.2 = none) ↔
      headerSection (requiredVcdiffs es) hdr := by
  rw [foldHdr_ok_iff hdr (initVcdiffDict es) (initVcdiffDict_keys_nodup es)]
  unfold headerSection
  unfold initVcdiffDict
  rw [List.forall_mem_map]
  constructor
  · intro hall
    refine ⟨hcolon, fun kv hkv => ?_⟩
    have := hall kv hkv
    simpa using this
  · rintro ⟨-, hall⟩ kv hkv
    have := hall kv hkv
    simpa using this

/-- C2 (amended): `check_xdelta` returns without exception iff the two
sizes agree and the dump consists of a header section containing each of
the five expected fields (including the header indicator VCD_APPHEADER,
which the claim as stated omits) exactly once with its expected value,
then the column-header row, exactly one instruction line
`000000 019 CPY_0 <size> @0`, an optional blank line, and end of output,
with empty stderr and exit code 0; and a size mismatch always fails at
the pre-parse check before any dump line is examined. -/
theorem C2_check_xdelta_characterization :
    ∀ (expected_size target_size : Nat) (lines : List String)
      (stderrData : String) (returncode : Int),
      (check_xdelta expected_size target_size lines stderrData returncode = .ok () ↔
        expected_size = target_size ∧ stderrData = "" ∧ returncode = 0 ∧
          xdeltaDumpOK (requiredVcdiffs expected_size) expected_size lines) ∧
      (expected_size ≠ target_size →
        check_xdelta expected_size target_size lines stderrData returncode =
          .error "sizePrecheck") := by
  intro es ts lines err rc
  have hpre : es ≠ ts →
      check_xdelta es ts lines err rc = .error "sizePrecheck" := by
    intro hne
    unfold check_xdelta
    rw [if_pos hne]
  refine ⟨?_, hpre⟩
  by_cases hne : es = ts
  · subst hne
    unfold check_xdelta
    rw [if_neg (by simp)]
    rw [processVcdiffHeaders_span lines (initVcdiffDict es)]
    constructor
    · intro hok
      cases hfd : foldHdr (initVcdiffDict es)
          (lines.takeWhile (fun l => isColonLine l)) with
      | error e =>
        rw [hfd] at hok
        cases hok
      | ok d' =>
        rw [hfd] at hok
        dsimp only at hok
        split_ifs at hok with hany hbrk hinstr hempt hlen herr hrc
        all_goals try cases hok
        refine ⟨rfl, ?_, ?_, ?_⟩
        · by_contra hc
          exact herr hc
        · by_contra hc
          exact hrc hc
        have hcolon : ∀ l ∈ lines.takeWhile (fun l => isColonLine l),
            isColonLine l = true := fun l hl => List.mem_takeWhile_imp hl
        have hcount := (foldHdr_ok_iff_headerSection es _ hcolon).mp
          ⟨d', hfd, by
            intro kv hkv
            by_contra hc
            exact hany (List.any_eq_true.mpr ⟨kv, hkv,
              by cases h2 : kv.2 with
                | none => exact absurd h2 hc
                | some v => simp [h2]⟩)⟩
        push_neg at hbrk
        cases hrest : lines.dropWhile (fun l => isColonLine l) with
        | nil =>
          exfalso
          rw [hrest] at hbrk
          have : vcdiffColumnHeader ≠ "" := by decide
          exact this (hbrk.symm)
        | cons h1 tail =>
          rw [hrest] at hbrk
          have hh1 : pyStrip h1 = vcdiffColumnHeader := hbrk
          refine ⟨lines.takeWhile (fun l => isColonLine l), h1, tail, ?_,
            hcount, hh1, ?_⟩
          · conv_lhs => rw [← List.takeWhile_append_dropWhile
              (fun l => isColonLine l) lines]
            rw [hrest]
          · rw [hrest] at hinstr hempt hlen
            push_neg at hinstr hempt
            cases tail with
            | nil =>
              exfalso
              have h0 : splitWs (pyStrip "") = ([] : List String) := by decide
              rw [show tailOf [h1] = ([] : List String) from rfl] at hinstr
              rw [show ([] : List String).getD 0 "" = "" from rfl] at hinstr
              rw [h0] at hinstr
              simp [expectedInstr] at hinstr
            | cons i1 tail2 =>
              cases tail2 with
              | nil =>
                left
                exact ⟨i1, rfl, hinstr⟩
              | cons e1 tail3 =>
                cases tail3 with
                | nil =>
                  right
                  exact ⟨i1, e1, rfl, hinstr, hempt⟩
                | cons e2 tail4 =>
                  exfalso
                  apply hlen
                  show 2 < (i1 :: e1 :: e2 :: tail4).length
                  simp only [List.length_cons]
                  omega
    · rintro ⟨-, herr, hrc, hdr, h1, tail, hlines, hheader, hh1, hdisj⟩
      have hsplit := takeWhile_dropWhile_split (fun l => isColonLine l) hdr h1 tail
        (fun x hx => hheader.1 x hx) (colHeader_not_colonLine hh1)
      rw [hlines, hsplit.1, hsplit.2]
      obtain ⟨d', hfd, hallnone⟩ :=
        (foldHdr_ok_iff_headerSection es hdr (fun x hx => hheader.1 x hx)).mpr hheader
      rw [hfd]
      dsimp only
      have hany : d'.any (fun kv => kv.2.isSome) = false := by
        rw [List.any_eq_false]
        intro kv hkv
        rw [hallnone kv hkv]
        simp
      rw [if_neg (by rw [hany]; simp)]
      have hbrk : brkOf (h1 :: tail) = vcdiffColumnHeader := hh1
      rw [if_neg (by rw [hbrk]; simp)]
      rcases hdisj with ⟨i1, rfl, hinstr⟩ | ⟨i1, e1, rfl, hinstr, hempt⟩
      · rw [show tailOf [h1, i1] = [i1] from rfl]
        rw [if_neg (by
          rw [show ([i1] : List String).getD 0 "" = i1 from rfl]
          simp [hinstr])]
        rw [if_neg (by
          rw [show ([i1] : List String).getD 1 "" = "" from rfl]
          simp [show pyStrip "" = "" from rfl])]
        rw [if_neg (by simp)]
        rw [if_neg (by simp [herr])]
        rw [if_neg (by simp [hrc])]
      · rw [show tailOf [h1, i1, e1] = [i1, e1] from rfl]
        rw [if_neg (by
          rw [show ([i1, e1] : List String).getD 0 "" = i1 from rfl]
          simp [hinstr])]
        rw [if_neg (by
          rw [show ([i1, e1] : List String).getD 1 "" = e1 from rfl]
          simp [hempt])]
        rw [if_neg (by simp)]
        rw [if_neg (by simp [herr])]
        rw [if_neg (by simp [hrc])]
  · rw [hpre hne]
    constructor
    · intro hok
      cases hok
    · rintro ⟨heq, -⟩
      exact absurd heq hne

/-- C2 witness: a size mismatch fails at the pre-parse check. -/
theorem C2_check_xdelta_witness :
    check_xdelta 1 2 [] "" 0 = .error "sizePrecheck" :=
  (C2_check_xdelta_characterization 1 2 [] "" 0).2 (by decide)

/-- C2 counterexample to the claim as stated: a dump carrying the four
header fields the claim lists (but no "VCDIFF header indicator:
VCD_APPHEADER" line), the column-header row, the single CPY_0 instruction
and a final blank line satisfies every condition of the claim, yet
`check_xdelta` raises XdeltaMismatch ("Couldn't find key"). -/
theorem C2_claim_counterexample :
    xdeltaClaimOK 5 5
      ["VCDIFF copy window length:    5",
       "VCDIFF copy window offset:    0",
       "VCDIFF target window length:  5",
       "VCDIFF data section length:   0",
       "  Offset Code Type1 Size1 @Addr1 + Type2 Size2 @Addr2",
       "  000000 019  CPY_0 5 @0     ",
       ""] "" 0 ∧
    check_xdelta 5 5
      ["VCDIFF copy window length:    5",
       "VCDIFF copy window offset:    0",
       "VCDIFF target window length:  5",
       "VCDIFF data section length:   0",
       "  Offset Code Type1 Size1 @Addr1 + Type2 Size2 @Addr2",
       "  000000 019  CPY_0 5 @0     ",
       ""] "" 0 = .error "missingKey" := by
  constructor
  · refine ⟨rfl, rfl, rfl, ?_⟩
    refine ⟨["VCDIFF copy window length:    5",
             "VCDIFF copy window offset:    0",
             "VCDIFF target window length:  5",
             "VCDIFF data section length:   0"],
      "  Offset Code Type1 Size1 @Addr1 + Type2 Size2 @Addr2",
      ["  000000 019  CPY_0 5 @0     ", ""], rfl, ?_, by decide,
      Or.inr ⟨"  000000 019  CPY_0 5 @0     ", "", rfl, by decide, by decide⟩⟩
    constructor
    · decide
    · decide
  · decide

/-! ### C9: the fallback-timestamp literal parser -/

/-- C9 counterexample to the claim as stated: a bare date `YYYYmmdd` with
the whole time part omitted is rejected — `parse_timestamp` returns None,
because every format it tries contains a mandatory `-%H%M` part.  The
spec's `[-HHMM[SS]]` bracket is wrong: only the seconds and the weekday
suffix are optional. -/
theorem C9_bare_date_counterexample :
    parse_timestamp "20210519" = none := by
  decide

/-- A rendered digit is a digit character. -/
theorem digitChar_isDigit {k : Nat} (h : k ≤ 9) : (digitChar k).isDigit = true := by
  interval_cases k <;> decide

/-- `digitVal` reads back a rendered digit. -/
theorem digitVal_digitChar {k : Nat} (h : k ≤ 9) : digitVal (digitChar k) = some k := by
  interval_cases k <;> decide

/-- A digit character is not the dash literal. -/
theorem ne_dash_of_isDigit {c : Char} (h : c.isDigit = true) : c ≠ '-' := by
  intro he
  rw [he] at h
  cases h

/-- A flatMap all of whose pieces vanish is empty. -/
theorem flatMap_nil_of_all {α β : Type} (l : List α) (f : α → List β)
    (h : ∀ a ∈ l, f a = []) : l.flatMap f = [] := by
  induction l with
  | nil => rfl
  | cons x t ih =>
    rw [List.flatMap_cons, h x (List.mem_cons_self x t),
      ih (fun a ha => h a (List.mem_cons_of_mem x ha))]
    rfl

/-- A directive sequence dies when every outcome of its first directive
kills the rest of the sequence. -/
theorem parseSeq_cons_nil (d : Dir) (ds : List Dir) (cs : List Char)
    (h : ∀ p ∈ dirParses d cs, parseSeq ds p.2 = []) :
    parseSeq (d :: ds) cs = [] := by
  rw [parseSeq]
  apply flatMap_nil_of_all
  intro p hp
  rw [h p hp]
  rfl

/-- A directive with a single outcome sequences into a map. -/
theorem parseSeq_cons_single {d : Dir} {ds : List Dir} {cs m : List Char}
    {v : Nat} (hd : dirParses d cs = [(v, m)]) :
    parseSeq (d :: ds) cs = (parseSeq ds m).map (fun q => (v :: q.1, q.2)) := by
  rw [parseSeq, hd, List.flatMap_cons, List.flatMap_nil, List.append_nil]

/-- The head of a sequenced parse is the composition of the directive
heads. -/
theorem parseSeq_cons_head {d : Dir} {ds : List Dir} {cs m : List Char}
    {v : Nat} {es : List (Nat × List Char)} {vs : List Nat} {r : List Char}
    {junk : List (List Nat × List Char)}
    (hd : dirParses d cs = (v, m) :: es)
    (ht : parseSeq ds m = (vs, r) :: junk) :
    ∃ junk2, parseSeq (d :: ds) cs = (v :: vs, r) :: junk2 := by
  rw [parseSeq, hd, List.flatMap_cons, ht]
  exact ⟨_, rfl⟩

/-- The literal directive kills a sequence when the head character
differs. -/
theorem parseSeq_lit_ne {ch c : Char} (ds : List Dir) (t : List Char)
    (h : c ≠ ch) : parseSeq (.lit ch :: ds) (c :: t) = [] := by
  apply parseSeq_cons_nil
  intro p hp
  exfalso
  simp [dirParses, h] at hp

/-- The literal directive kills a sequence at end of input. -/
theorem parseSeq_lit_nil (ch : Char) (ds : List Dir) :
    parseSeq (.lit ch :: ds) [] = [] := rfl

/-- The literal directive consumes its character. -/
theorem parseSeq_lit_eq (ch : Char) (ds : List Dir) (t : List Char) :
    parseSeq (.lit ch :: ds) (ch :: t) =
      (parseSeq ds t).map (fun q => (0 :: q.1, q.2)) := by
  apply parseSeq_cons_single
  simp [dirParses]

/-- `%H` consumes one or two characters. -/
theorem parseH_consume (c1 c2 : Char) (t : List Char) (p : Nat × List Char)
    (hp : p ∈ parseH (c1 :: c2 :: t)) : p.2 = t ∨ p.2 = c2 :: t := by
  unfold parseH at hp
  have h := List.mem_append.mp hp
  clear hp
  rcases h with h | h
  · have h2 := List.mem_append.mp h
    clear h
    rcases h2 with h | h <;> (repeat' split at h) <;> simp_all
  · (repeat' split at h) <;> simp_all

/-- `%M` consumes one or two characters. -/
theorem parseMi_consume (c1 c2 : Char) (t : List Char) (p : Nat × List Char)
    (hp : p ∈ parseMi (c1 :: c2 :: t)) : p.2 = t ∨ p.2 = c2 :: t := by
  unfold parseMi at hp
  have h := List.mem_append.mp hp
  clear hp
  rcases h with h | h <;> (repeat' split at h) <;> simp_all

/-- `%S` consumes one or two characters. -/
theorem parseS_consume (c1 c2 : Char) (t : List Char) (p : Nat × List Char)
    (hp : p ∈ parseS (c1 :: c2 :: t)) : p.2 = t ∨ p.2 = c2 :: t := by
  unfold parseS at hp
  have h := List.mem_append.mp hp
  clear hp
  rcases h with h | h
  · have h2 := List.mem_append.mp h
    clear h
    rcases h2 with h | h <;> (repeat' split at h) <;> simp_all
  · (repeat' split at h) <;> simp_all

/-- `%m` consumes one or two characters. -/
theorem parseMo_consume (c1 c2 : Char) (t : List Char) (p : Nat × List Char)
    (hp : p ∈ parseMo (c1 :: c2 :: t)) : p.2 = t ∨ p.2 = c2 :: t := by
  unfold parseMo at hp
  have h := List.mem_append.mp hp
  clear hp
  rcases h with h | h
  · have h2 := List.mem_append.mp h
    clear h
    rcases h2 with h | h <;> (repeat' split at h) <;> simp_all
  · (repeat' split at h) <;> simp_all

/-- `%d` consumes one or two characters. -/
theorem parseDy_consume (c1 c2 : Char) (t : List Char) (p : Nat × List Char)
    (hp : p ∈ parseDy (c1 :: c2 :: t)) : p.2 = t ∨ p.2 = c2 :: t := by
  unfold parseDy at hp
  simp only [List.mem_append] at hp
  rcases hp with ((h | h) | h) | h <;> (repeat' split at h) <;>
    simp_all <;> rcases h with rfl | rfl <;> simp

/-- `%Y` reads back exactly a zero-padded four-digit year. -/
theorem parseY_pad (y : Nat) (hy : y ≤ 9999) (X : List Char) :
    parseY (pad4 y ++ X) = [(y, X)] := by
  have h1 : y / 1000 ≤ 9 := by omega
  have h2 : y / 100 % 10 ≤ 9 := by omega
  have h3 : y / 10 % 10 ≤ 9 := by omega
  have h4 : y % 10 ≤ 9 := by omega
  have e : pad4 y ++ X = digitChar (y / 1000) :: digitChar (y / 100 % 10) ::
      digitChar (y / 10 % 10) :: digitChar (y % 10) :: X := rfl
  rw [e]
  simp [parseY, digitVal_digitChar h1, digitVal_digitChar h2,
    digitVal_digitChar h3, digitVal_digitChar h4]
  omega

/-- The first regex alternative of `%m` takes both padded digits. -/
theorem parseMo_head (mo : Nat) (h1 : 1 ≤ mo) (h2 : mo ≤ 12) (X : List Char) :
    ∃ tl, parseMo (pad2 mo ++ X) = (mo, X) :: tl := by
  interval_cases mo <;> exact ⟨_, rfl⟩

/-- The first regex alternative of `%d` takes both padded digits. -/
theorem parseDy_head (d : Nat) (h1 : 1 ≤ d) (h2 : d ≤ 31) (X : List Char) :
    ∃ tl, parseDy (pad2 d ++ X) = (d, X) :: tl := by
  interval_cases d <;> exact ⟨_, rfl⟩

/-- The first regex alternative of `%H` takes both padded digits. -/
theorem parseH_head (hh : Nat) (h2 : hh ≤ 23) (X : List Char) :
    ∃ tl, parseH (pad2 hh ++ X) = (hh, X) :: tl := by
  interval_cases hh <;> exact ⟨_, rfl⟩

/-- The first regex alternative of `%M` takes both padded digits. -/
theorem parseMi_head (mi : Nat) (h2 : mi ≤ 59) (X : List Char) :
    ∃ tl, parseMi (pad2 mi ++ X) = (mi, X) :: tl := by
  interval_cases mi <;> exact ⟨_, rfl⟩

/-- The first regex alternative of `%S` takes both padded digits. -/
theorem parseS_head (s : Nat) (h2 : s ≤ 59) (X : List Char) :
    ∃ tl, parseS (pad2 s ++ X) = (s, X) :: tl := by
  interval_cases s <;> exact ⟨_, rfl⟩

/-- `%a` matches a weekday abbreviation and consumes exactly its three
characters. -/
theorem parseA_abbrev {w : List Char} (t : List Char)
    (h : w.map Char.toLower ∈ abbrevTable) :
    ∃ i, parseA (w ++ t) = [(i, t)] := by
  have hlen : w.length = 3 := by
    have h2 : (w.map Char.toLower).length = 3 := by
      simp only [abbrevTable, List.mem_cons, List.not_mem_nil, or_false] at h
      rcases h with h | h | h | h | h | h | h <;> rw [h] <;> rfl
    simpa using h2
  obtain ⟨a, b, c, rfl⟩ : ∃ a b c, w = [a, b, c] := by
    rcases w with _ | ⟨a, w⟩
    · simp at hlen
    rcases w with _ | ⟨b, w⟩
    · simp at hlen
    rcases w with _ | ⟨c, w⟩
    · simp at hlen
    rcases w with _ | ⟨e, w⟩
    · exact ⟨a, b, c, rfl⟩
    · simp at hlen
  simp only [List.map_cons, List.map_nil] at h
  simp only [abbrevTable, List.mem_cons, List.not_mem_nil, or_false] at h
  rcases h with h | h | h | h | h | h | h <;>
    obtain ⟨e1, e2, e3⟩ : _ ∧ _ ∧ _ := by
      injection h with g1 h; injection h with g2 h; injection h with g3 h
      exact ⟨g1, g2, g3⟩
  · exact ⟨0, by simp only [List.cons_append, List.nil_append, parseA, e1, e2, e3]; rfl⟩
  · exact ⟨1, by simp only [List.cons_append, List.nil_append, parseA, e1, e2, e3]; rfl⟩
  · exact ⟨2, by simp only [List.cons_append, List.nil_append, parseA, e1, e2, e3]; rfl⟩
  · exact ⟨3, by simp only [List.cons_append, List.nil_append, parseA, e1, e2, e3]; rfl⟩
  · exact ⟨4, by simp only [List.cons_append, List.nil_append, parseA, e1, e2, e3]; rfl⟩
  · exact ⟨5, by simp only [List.cons_append, List.nil_append, parseA, e1, e2, e3]; rfl⟩
  · exact ⟨6, by simp only [List.cons_append, List.nil_append, parseA, e1, e2, e3]; rfl⟩

/-- No month has more than 31 days. -/
theorem daysInMonth_le (y m : Nat) : daysInMonth y m ≤ 31 := by
  unfold daysInMonth
  split_ifs <;> omega

/-- `%H%M-` cannot match a four-character all-digit tail: after `%H%M`
consume two to four characters the literal dash faces a digit or the end
of input. -/
theorem parseSeq_hm_fail4 (ds : List Dir) (c0 c1 c2 c3 : Char)
    (h2 : c2.isDigit = true) (h3 : c3.isDigit = true) :
    parseSeq (.dirH :: .dirMi :: .lit '-' :: ds) [c0, c1, c2, c3] = [] := by
  apply parseSeq_cons_nil
  intro p hp
  rcases parseH_consume c0 c1 [c2, c3] p hp with h | h <;> rw [h] <;>
      apply parseSeq_cons_nil <;> intro q hq
  · rcases parseMi_consume c2 c3 [] q hq with h' | h' <;> rw [h']
    · exact parseSeq_lit_nil '-' ds
    · exact parseSeq_lit_ne ds [] (ne_dash_of_isDigit h3)
  · rcases parseMi_consume c1 c2 [c3] q hq with h' | h' <;> rw [h']
    · exact parseSeq_lit_ne ds [] (ne_dash_of_isDigit h3)
    · exact parseSeq_lit_ne ds [c3] (ne_dash_of_isDigit h2)

/-- `%H%M-` cannot match a tail whose third through fifth characters are
digits: the literal dash always faces a digit. -/
theorem parseSeq_hm_fail5 (ds : List Dir) (c0 c1 c2 c3 c4 : Char)
    (t : List Char) (h2 : c2.isDigit = true) (h3 : c3.isDigit = true)
    (h4 : c4.isDigit = true) :
    parseSeq (.dirH :: .dirMi :: .lit '-' :: ds)
      (c0 :: c1 :: c2 :: c3 :: c4 :: t) = [] := by
  apply parseSeq_cons_nil
  intro p hp
  rcases parseH_consume c0 c1 (c2 :: c3 :: c4 :: t) p hp with h | h <;> rw [h] <;>
      apply parseSeq_cons_nil <;> intro q hq
  · rcases parseMi_consume c2 c3 (c4 :: t) q hq with h' | h' <;> rw [h']
    · exact parseSeq_lit_ne ds t (ne_dash_of_isDigit h4)
    · exact parseSeq_lit_ne ds (c4 :: t) (ne_dash_of_isDigit h3)
  · rcases parseMi_consume c1 c2 (c3 :: c4 :: t) q hq with h' | h' <;> rw [h']
    · exact parseSeq_lit_ne ds (c4 :: t) (ne_dash_of_isDigit h3)
    · exact parseSeq_lit_ne ds (c3 :: c4 :: t) (ne_dash_of_isDigit h2)

/-- `%H%M%S-` cannot match a six-character tail whose last three
characters are digits: the literal dash faces a digit or the end. -/
theorem parseSeq_hms_fail6 (ds : List Dir) (c0 c1 c2 c3 c4 c5 : Char)
    (h3 : c3.isDigit = true) (h4 : c4.isDigit = true)
    (h5 : c5.isDigit = true) :
    parseSeq (.dirH :: .dirMi :: .dirS :: .lit '-' :: ds)
      [c0, c1, c2, c3, c4, c5] = [] := by
  apply parseSeq_cons_nil
  intro p hp
  rcases parseH_consume c0 c1 [c2, c3, c4, c5] p hp with h | h <;> rw [h] <;>
      apply parseSeq_cons_nil <;> intro q hq
  · rcases parseMi_consume c2 c3 [c4, c5] q hq with h' | h' <;> rw [h'] <;>
        apply parseSeq_cons_nil <;> intro u hu
    · rcases parseS_consume c4 c5 [] u hu with h'' | h'' <;> rw [h'']
      · exact parseSeq_lit_nil '-' ds
      · exact parseSeq_lit_ne ds [] (ne_dash_of_isDigit h5)
    · rcases parseS_consume c3 c4 [c5] u hu with h'' | h'' <;> rw [h'']
      · exact parseSeq_lit_ne ds [] (ne_dash_of_isDigit h5)
      · exact parseSeq_lit_ne ds [c5] (ne_dash_of_isDigit h4)
  · rcases parseMi_consume c1 c2 [c3, c4, c5] q hq with h' | h' <;> rw [h'] <;>
        apply parseSeq_cons_nil <;> intro u hu
    · rcases parseS_consume c3 c4 [c5] u hu with h'' | h'' <;> rw [h'']
      · exact parseSeq_lit_ne ds [] (ne_dash_of_isDigit h5)
      · exact parseSeq_lit_ne ds [c5] (ne_dash_of_isDigit h4)
    · rcases parseS_consume c2 c3 [c4, c5] u hu with h'' | h'' <;> rw [h'']
      · exact parseSeq_lit_ne ds [c5] (ne_dash_of_isDigit h4)
      · exact parseSeq_lit_ne ds [c4, c5] (ne_dash_of_isDigit h3)

/-- The date prefix `%Y%m%d-` dies completely when the rest of the
pattern dies on the rest of the string: backtracking branches that take
only one digit for `%m` or `%d` leave the dash literal facing a digit. -/
theorem parseSeq_date_fail (RST : List Dir) (y mo d : Nat) (T : List Char)
    (hy : y ≤ 9999) (hmo1 : 1 ≤ mo) (hmo2 : mo ≤ 12) (hd1 : 1 ≤ d)
    (hd2 : d ≤ 31) (hT : parseSeq RST T = []) :
    parseSeq (.dirY :: .dirMo :: .dirDy :: .lit '-' :: RST)
      (pad4 y ++ (pad2 mo ++ (pad2 d ++ '-' :: T))) = [] := by
  rw [parseSeq_cons_single
    (show dirParses Dir.dirY (pad4 y ++ (pad2 mo ++ (pad2 d ++ '-' :: T))) =
      [(y, pad2 mo ++ (pad2 d ++ '-' :: T))] from
        parseY_pad y hy (pad2 mo ++ (pad2 d ++ '-' :: T)))]
  rw [List.map_eq_nil]
  apply parseSeq_cons_nil
  intro p hp
  rcases parseMo_consume (digitChar (mo / 10)) (digitChar (mo % 10))
      (pad2 d ++ '-' :: T) p hp with h | h <;> rw [h]
  · apply parseSeq_cons_nil
    intro q hq
    rcases parseDy_consume (digitChar (d / 10)) (digitChar (d % 10))
        ('-' :: T) q hq with h' | h' <;> rw [h']
    · rw [parseSeq_lit_eq, hT]
      rfl
    · exact parseSeq_lit_ne _ _
        (ne_dash_of_isDigit (digitChar_isDigit (show d % 10 ≤ 9 by omega)))
  · apply parseSeq_cons_nil
    intro q hq
    rcases parseDy_consume (digitChar (mo % 10)) (digitChar (d / 10))
        (digitChar (d % 10) :: '-' :: T) q hq with h' | h' <;> rw [h']
    · exact parseSeq_lit_ne _ _
        (ne_dash_of_isDigit (digitChar_isDigit (show d % 10 ≤ 9 by omega)))
    · exact parseSeq_lit_ne _ _
        (ne_dash_of_isDigit (digitChar_isDigit (show d / 10 ≤ 9 by omega)))

/-- The preferred match of the date prefix `%Y%m%d-` takes the padded
digits and composes with the preferred match of the rest. -/
theorem parseSeq_date_head (RST : List Dir) (y mo d : Nat) (T : List Char)
    (vs : List Nat) (r : List Char) (tl : List (List Nat × List Char))
    (hy : y ≤ 9999) (hmo1 : 1 ≤ mo) (hmo2 : mo ≤ 12) (hd1 : 1 ≤ d)
    (hd2 : d ≤ 31) (hT : parseSeq RST T = (vs, r) :: tl) :
    ∃ junk, parseSeq (.dirY :: .dirMo :: .dirDy :: .lit '-' :: RST)
      (pad4 y ++ (pad2 mo ++ (pad2 d ++ '-' :: T))) =
        (y :: mo :: d :: 0 :: vs, r) :: junk := by
  have hlit : parseSeq (Dir.lit '-' :: RST) ('-' :: T) =
      (0 :: vs, r) :: tl.map (fun q => (0 :: q.1, q.2)) := by
    rw [parseSeq_lit_eq, hT]
    rfl
  obtain ⟨tlD, hD⟩ := parseDy_head d hd1 hd2 ('-' :: T)
  obtain ⟨j1, e1⟩ := parseSeq_cons_head
    (show dirParses Dir.dirDy (pad2 d ++ '-' :: T) = _ from hD) hlit
  obtain ⟨tlM, hM⟩ := parseMo_head mo hmo1 hmo2 (pad2 d ++ '-' :: T)
  obtain ⟨j2, e2⟩ := parseSeq_cons_head
    (show dirParses Dir.dirMo (pad2 mo ++ (pad2 d ++ '-' :: T)) = _ from hM) e1
  rw [parseSeq_cons_single
    (show dirParses Dir.dirY (pad4 y ++ (pad2 mo ++ (pad2 d ++ '-' :: T))) =
      [(y, pad2 mo ++ (pad2 d ++ '-' :: T))] from parseY_pad y hy _), e2]
  exact ⟨_, rfl⟩

/-- The separator substitution leaves a digit character alone. -/
theorem sepMap_digit {k : Nat} (h : k ≤ 9) :
    (if digitChar k = '_' ∨ digitChar k = ' ' then '-' else digitChar k) =
      digitChar k := by
  interval_cases k <;> rfl

/-- The separator substitution leaves a padded two-digit field alone. -/
theorem sepMap_pad2 {n : Nat} (h : n ≤ 99) :
    (pad2 n).map (fun c => if c = '_' ∨ c = ' ' then '-' else c) = pad2 n := by
  simp only [pad2, List.map_cons, List.map_nil]
  rw [sepMap_digit (show n / 10 ≤ 9 by omega),
    sepMap_digit (show n % 10 ≤ 9 by omega)]

/-- The separator substitution leaves a padded four-digit field alone. -/
theorem sepMap_pad4 {n : Nat} (h : n ≤ 9999) :
    (pad4 n).map (fun c => if c = '_' ∨ c = ' ' then '-' else c) = pad4 n := by
  simp only [pad4, List.map_cons, List.map_nil]
  rw [sepMap_digit (show n / 1000 ≤ 9 by omega),
    sepMap_digit (show n / 100 % 10 ≤ 9 by omega),
    sepMap_digit (show n / 10 % 10 ≤ 9 by omega),
    sepMap_digit (show n % 10 ≤ 9 by omega)]

/-- The separator substitution sends each accepted separator to a dash. -/
theorem sepMap_sep {c : Char} (h : c ∈ ['-', '_', ' ']) :
    (if c = '_' ∨ c = ' ' then '-' else c) = '-' := by
  simp only [List.mem_cons, List.not_mem_nil, or_false] at h
  rcases h with rfl | rfl | rfl <;> rfl

/-- The separator substitution leaves a weekday abbreviation alone: its
characters are letters, never underscores or spaces. -/
theorem sepMap_wd {w : List Char} (h : w.map Char.toLower ∈ abbrevTable) :
    w.map (fun c => if c = '_' ∨ c = ' ' then '-' else c) = w := by
  have h7 : ∀ c ∈ w, ¬(c = '_' ∨ c = ' ') := by
    intro c hc
    have hlc : c.toLower ∈ w.map Char.toLower := List.mem_map_of_mem Char.toLower hc
    simp only [abbrevTable, List.mem_cons, List.not_mem_nil, or_false] at h
    rcases h with h | h | h | h | h | h | h <;> rw [h] at hlc <;>
      rintro (rfl | rfl) <;> revert hlc <;> decide
  clear h
  induction w with
  | nil => rfl
  | cons c t ih =>
    simp only [List.map_cons]
    rw [if_neg (h7 c (List.mem_cons_self c t)),
      ih (fun x hx => h7 x (List.mem_cons_of_mem c hx))]

/-- `replaceSep` normalizes a rendered timestamp: the separators become
dashes and every other character is untouched. -/
theorem replaceSep_renderTS (y mo d hh mi : Nat) (sec : Option Nat)
    (sep1 sep2 : Char) (wd : Option (List Char))
    (hy : y ≤ 9999) (hmo : mo ≤ 99) (hd : d ≤ 99) (hh2 : hh ≤ 99)
    (hmi : mi ≤ 99) (hsec : ∀ s, sec = some s → s ≤ 99)
    (hs1 : sep1 ∈ ['-', '_', ' ']) (hs2 : sep2 ∈ ['-', '_', ' '])
    (hwd : ∀ w, wd = some w → w.map Char.toLower ∈ abbrevTable) :
    replaceSep (renderTS y mo d hh mi sec sep1 sep2 wd) =
      renderTS y mo d hh mi sec '-' '-' wd := by
  unfold replaceSep renderTS
  congr 1
  rcases sec with _ | s <;> rcases wd with _ | w
  · simp only [List.map_append, List.map_cons, List.map_nil]
    rw [sepMap_pad4 hy, sepMap_pad2 hmo, sepMap_pad2 hd, sepMap_sep hs1,
      sepMap_pad2 hh2, sepMap_pad2 hmi]
  · simp only [List.map_append, List.map_cons, List.map_nil]
    rw [sepMap_pad4 hy, sepMap_pad2 hmo, sepMap_pad2 hd, sepMap_sep hs1,
      sepMap_pad2 hh2, sepMap_pad2 hmi, sepMap_sep hs2, sepMap_wd (hwd w rfl)]
  · simp only [List.map_append, List.map_cons, List.map_nil]
    rw [sepMap_pad4 hy, sepMap_pad2 hmo, sepMap_pad2 hd, sepMap_sep hs1,
      sepMap_pad2 hh2, sepMap_pad2 hmi, sepMap_pad2 (hsec s rfl)]
  · simp only [List.map_append, List.map_cons, List.map_nil]
    rw [sepMap_pad4 hy, sepMap_pad2 hmo, sepMap_pad2 hd, sepMap_sep hs1,
      sepMap_pad2 hh2, sepMap_pad2 hmi, sepMap_pad2 (hsec s rfl),
      sepMap_sep hs2, sepMap_wd (hwd w rfl)]

/-- `strptimeM` fails when the pattern has no match at all. -/
theorem strptimeM_eq_none_of_nil {dirs : List Dir} {s : String}
    (h : parseSeq dirs s.data = []) : strptimeM dirs s = none := by
  rw [strptimeM, h]

/-- `strptimeM` fails when the preferred match leaves unconverted data. -/
theorem strptimeM_eq_none_of_rest {dirs : List Dir} {s : String}
    {vs : List Nat} {c : Char} {t : List Char}
    {junk : List (List Nat × List Char)}
    (h : parseSeq dirs s.data = (vs, c :: t) :: junk) :
    strptimeM dirs s = none := by
  rw [strptimeM, h]
  simp

/-- `strptimeM` succeeds on a full preferred match with valid fields. -/
theorem strptimeM_eq_some {dirs : List Dir} {s : String} {vs : List Nat}
    {junk : List (List Nat × List Char)} {dt : DateTimeV}
    (h : parseSeq dirs s.data = (vs, []) :: junk)
    (hass : assembleTS dirs vs ⟨1900, 1, 1, 0, 0, 0⟩ = dt)
    (hval : validDT dt = true) : strptimeM dirs s = some dt := by
  rw [strptimeM, h]
  simp [hass, hval]

/-- `parse_timestamp` unfolded over its four-format chain. -/
theorem parse_timestamp_eq (s0 : String) :
    parse_timestamp s0 =
      match strptimeM fmtNoSecA (replaceSep s0) with
      | some dt => some dt
      | none =>
        match strptimeM fmtNoSec (replaceSep s0) with
        | some dt => some dt
        | none =>
          match strptimeM fmtSecA (replaceSep s0) with
          | some dt => some dt
          | none => strptimeM fmtSec (replaceSep s0) := rfl

/-- A datetime with in-range fields passes the constructor check. -/
theorem validDT_of_bounds (y mo d hh mi s : Nat)
    (hy1 : 1 ≤ y) (hy : y ≤ 9999) (hmo1 : 1 ≤ mo) (hmo2 : mo ≤ 12)
    (hd1 : 1 ≤ d) (hd2 : d ≤ daysInMonth y mo) (hh2 : hh ≤ 23)
    (hmi : mi ≤ 59) (hs : s ≤ 59) :
    validDT ⟨y, mo, d, hh, mi, s⟩ = true := by
  simp only [validDT, validDate, decide_eq_true_eq]
  exact ⟨⟨hy1, hy, hmo1, hmo2, hd1, hd2⟩, hh2, hmi, hs⟩

/-- C9 (amended): `parse_timestamp` accepts a rendered timestamp only
when the time part is present: every string `YYYYmmdd(sep)HHMM[SS][(sep)aaa]`
with in-range fields, separators drawn from dash, underscore, or space,
and `aaa` a weekday abbreviation in any case parses to the corresponding
datetime, with an omitted seconds field read as zero. -/
theorem C9_parse_timestamp_amended
    (y mo d hh mi : Nat) (sec : Option Nat) (sep1 sep2 : Char)
    (wd : Option (List Char))
    (hy1 : 1 ≤ y) (hy : y ≤ 9999) (hmo1 : 1 ≤ mo) (hmo2 : mo ≤ 12)
    (hd1 : 1 ≤ d) (hd2 : d ≤ daysInMonth y mo) (hh2 : hh ≤ 23) (hmi : mi ≤ 59)
    (hsec : ∀ s, sec = some s → s ≤ 59)
    (hs1 : sep1 ∈ ['-', '_', ' ']) (hs2 : sep2 ∈ ['-', '_', ' '])
    (hwd : ∀ w, wd = some w → w.map Char.toLower ∈ abbrevTable) :
    parse_timestamp (renderTS y mo d hh mi sec sep1 sep2 wd) =
      some ⟨y, mo, d, hh, mi, sec.getD 0⟩ := by
  have hd31 : d ≤ 31 := le_trans hd2 (daysInMonth_le y mo)
  have hrepl := replaceSep_renderTS y mo d hh mi sec sep1 sep2 wd hy
    (by omega) (by omega) (by omega) (by omega)
    (fun s h => by have := hsec s h; omega) hs1 hs2 hwd
  rcases sec with _ | s <;> rcases wd with _ | w
  · -- no seconds, no weekday: the second format matches in full
    have hdata : (renderTS y mo d hh mi none '-' '-' none).data
        = pad4 y ++ (pad2 mo ++ (pad2 d ++ '-' :: (pad2 hh ++ pad2 mi))) := by
      simp [renderTS]
    have hfailA : strptimeM fmtNoSecA
        (renderTS y mo d hh mi none '-' '-' none) = none := by
      apply strptimeM_eq_none_of_nil
      rw [hdata]
      exact parseSeq_date_fail [Dir.dirH, Dir.dirMi, Dir.lit '-', Dir.dirA]
        y mo d (pad2 hh ++ pad2 mi) hy hmo1 hmo2 hd1 hd31
        (parseSeq_hm_fail4 [Dir.dirA] (digitChar (hh / 10))
          (digitChar (hh % 10)) (digitChar (mi / 10)) (digitChar (mi % 10))
          (digitChar_isDigit (by omega)) (digitChar_isDigit (by omega)))
    obtain ⟨t1, e1⟩ := parseMi_head mi hmi []
    rw [List.append_nil] at e1
    obtain ⟨j1, f1⟩ := parseSeq_cons_head
      (show dirParses Dir.dirMi (pad2 mi) = (mi, ([] : List Char)) :: t1 from e1)
      (show parseSeq [] ([] : List Char) = ([], ([] : List Char)) :: [] from rfl)
    obtain ⟨t2, e2⟩ := parseH_head hh hh2 (pad2 mi)
    obtain ⟨j2, f2⟩ := parseSeq_cons_head
      (show dirParses Dir.dirH (pad2 hh ++ pad2 mi) = (hh, pad2 mi) :: t2 from e2)
      f1
    obtain ⟨j3, f3⟩ := parseSeq_date_head [Dir.dirH, Dir.dirMi] y mo d
      (pad2 hh ++ pad2 mi) _ _ _ hy hmo1 hmo2 hd1 hd31 f2
    have hp : parseSeq fmtNoSec (renderTS y mo d hh mi none '-' '-' none).data
        = (y :: mo :: d :: 0 :: hh :: mi :: [], ([] : List Char)) :: j3 := by
      rw [hdata]
      exact f3
    have hokB : strptimeM fmtNoSec (renderTS y mo d hh mi none '-' '-' none)
        = some ⟨y, mo, d, hh, mi, 0⟩ :=
      strptimeM_eq_some hp rfl
        (validDT_of_bounds y mo d hh mi 0 hy1 hy hmo1 hmo2 hd1 hd2 hh2 hmi
          (by omega))
    rw [parse_timestamp_eq, hrepl, hfailA, hokB]
    rfl
  · -- no seconds, weekday: the first format matches in full
    have hdata : (renderTS y mo d hh mi none '-' '-' (some w)).data
        = pad4 y ++ (pad2 mo ++ (pad2 d ++ '-' ::
            (pad2 hh ++ (pad2 mi ++ '-' :: w)))) := by
      simp [renderTS]
    obtain ⟨i, hA⟩ := parseA_abbrev [] (hwd w rfl)
    rw [List.append_nil] at hA
    have fA : parseSeq [Dir.dirA] w = [([i], ([] : List Char))] := by
      rw [parseSeq_cons_single
        (show dirParses Dir.dirA w = [(i, ([] : List Char))] from hA)]
      rfl
    have fLit : parseSeq [Dir.lit '-', Dir.dirA] ('-' :: w)
        = [([0, i], ([] : List Char))] := by
      rw [parseSeq_lit_eq, fA]
      rfl
    obtain ⟨t1, e1⟩ := parseMi_head mi hmi ('-' :: w)
    obtain ⟨j1, f1⟩ := parseSeq_cons_head
      (show dirParses Dir.dirMi (pad2 mi ++ '-' :: w) = (mi, '-' :: w) :: t1
        from e1) fLit
    obtain ⟨t2, e2⟩ := parseH_head hh hh2 (pad2 mi ++ '-' :: w)
    obtain ⟨j2, f2⟩ := parseSeq_cons_head
      (show dirParses Dir.dirH (pad2 hh ++ (pad2 mi ++ '-' :: w))
        = (hh, pad2 mi ++ '-' :: w) :: t2 from e2) f1
    obtain ⟨j3, f3⟩ := parseSeq_date_head
      [Dir.dirH, Dir.dirMi, Dir.lit '-', Dir.dirA] y mo d
      (pad2 hh ++ (pad2 mi ++ '-' :: w)) _ _ _ hy hmo1 hmo2 hd1 hd31 f2
    have hp : parseSeq fmtNoSecA
        (renderTS y mo d hh mi none '-' '-' (some w)).data
        = (y :: mo :: d :: 0 :: hh :: mi :: 0 :: i :: [], ([] : List Char))
            :: j3 := by
      rw [hdata]
      exact f3
    have hokA : strptimeM fmtNoSecA
        (renderTS y mo d hh mi none '-' '-' (some w))
        = some ⟨y, mo, d, hh, mi, 0⟩ :=
      strptimeM_eq_some hp rfl
        (validDT_of_bounds y mo d hh mi 0 hy1 hy hmo1 hmo2 hd1 hd2 hh2 hmi
          (by omega))
    rw [parse_timestamp_eq, hrepl, hokA]
    rfl
  · -- seconds, no weekday: the fourth format matches in full
    have hs59 := hsec s rfl
    have hdata : (renderTS y mo d hh mi (some s) '-' '-' none).data
        = pad4 y ++ (pad2 mo ++ (pad2 d ++ '-' ::
            (pad2 hh ++ (pad2 mi ++ pad2 s)))) := by
      simp [renderTS]
    have hfailA : strptimeM fmtNoSecA
        (renderTS y mo d hh mi (some s) '-' '-' none) = none := by
      apply strptimeM_eq_none_of_nil
      rw [hdata]
      exact parseSeq_date_fail [Dir.dirH, Dir.dirMi, Dir.lit '-', Dir.dirA]
        y mo d (pad2 hh ++ (pad2 mi ++ pad2 s)) hy hmo1 hmo2 hd1 hd31
        (parseSeq_hm_fail5 [Dir.dirA] (digitChar (hh / 10))
          (digitChar (hh % 10)) (digitChar (mi / 10)) (digitChar (mi % 10))
          (digitChar (s / 10)) [digitChar (s % 10)]
          (digitChar_isDigit (by omega)) (digitChar_isDigit (by omega))
          (digitChar_isDigit (by omega)))
    obtain ⟨t1, e1⟩ := parseMi_head mi hmi (pad2 s)
    obtain ⟨j1, f1⟩ := parseSeq_cons_head
      (show dirParses Dir.dirMi (pad2 mi ++ pad2 s) = (mi, pad2 s) :: t1
        from e1)
      (show parseSeq [] (pad2 s) = ([], pad2 s) :: [] from rfl)
    obtain ⟨t2, e2⟩ := parseH_head hh hh2 (pad2 mi ++ pad2 s)
    obtain ⟨j2, f2⟩ := parseSeq_cons_head
      (show dirParses Dir.dirH (pad2 hh ++ (pad2 mi ++ pad2 s))
        = (hh, pad2 mi ++ pad2 s) :: t2 from e2) f1
    obtain ⟨j3, f3⟩ := parseSeq_date_head [Dir.dirH, Dir.dirMi] y mo d
      (pad2 hh ++ (pad2 mi ++ pad2 s)) _ _ _ hy hmo1 hmo2 hd1 hd31 f2
    have hpB : parseSeq fmtNoSec
        (renderTS y mo d hh mi (some s) '-' '-' none).data
        = (y :: mo :: d :: 0 :: hh :: mi :: [], pad2 s) :: j3 := by
      rw [hdata]
      exact f3
    have hfailB : strptimeM fmtNoSec
        (renderTS y mo d hh mi (some s) '-' '-' none) = none :=
      strptimeM_eq_none_of_rest hpB
    have hfailC : strptimeM fmtSecA
        (renderTS y mo d hh mi (some s) '-' '-' none) = none := by
      apply strptimeM_eq_none_of_nil
      rw [hdata]
      exact parseSeq_date_fail
        [Dir.dirH, Dir.dirMi, Dir.dirS, Dir.lit '-', Dir.dirA]
        y mo d (pad2 hh ++ (pad2 mi ++ pad2 s)) hy hmo1 hmo2 hd1 hd31
        (parseSeq_hms_fail6 [Dir.dirA] (digitChar (hh / 10))
          (digitChar (hh % 10)) (digitChar (mi / 10)) (digitChar (mi % 10))
          (digitChar (s / 10)) (digitChar (s % 10))
          (digitChar_isDigit (by omega)) (digitChar_isDigit (by omega))
          (digitChar_isDigit (by omega)))
    obtain ⟨t0, e0⟩ := parseS_head s hs59 []
    rw [List.append_nil] at e0
    obtain ⟨j0, f0⟩ := parseSeq_cons_head
      (show dirParses Dir.dirS (pad2 s) = (s, ([] : List Char)) :: t0 from e0)
      (show parseSeq [] ([] : List Char) = ([], ([] : List Char)) :: [] from rfl)
    obtain ⟨t1', e1'⟩ := parseMi_head mi hmi (pad2 s)
    obtain ⟨j1', f1'⟩ := parseSeq_cons_head
      (show dirParses Dir.dirMi (pad2 mi ++ pad2 s) = (mi, pad2 s) :: t1'
        from e1') f0
    obtain ⟨t2', e2'⟩ := parseH_head hh hh2 (pad2 mi ++ pad2 s)
    obtain ⟨j2', f2'⟩ := parseSeq_cons_head
      (show dirParses Dir.dirH (pad2 hh ++ (pad2 mi ++ pad2 s))
        = (hh, pad2 mi ++ pad2 s) :: t2' from e2') f1'
    obtain ⟨j3', f3'⟩ := parseSeq_date_head [Dir.dirH, Dir.dirMi, Dir.dirS]
      y mo d (pad2 hh ++ (pad2 mi ++ pad2 s)) _ _ _ hy hmo1 hmo2 hd1 hd31 f2'
    have hpD : parseSeq fmtSec
        (renderTS y mo d hh mi (some s) '-' '-' none).data
        = (y :: mo :: d :: 0 :: hh :: mi :: s :: [], ([] : List Char))
            :: j3' := by
      rw [hdata]
      exact f3'
    have hokD : strptimeM fmtSec (renderTS y mo d hh mi (some s) '-' '-' none)
        = some ⟨y, mo, d, hh, mi, s⟩ :=
      strptimeM_eq_some hpD rfl
        (validDT_of_bounds y mo d hh mi s hy1 hy hmo1 hmo2 hd1 hd2 hh2 hmi
          hs59)
    rw [parse_timestamp_eq, hrepl, hfailA, hfailB, hfailC, hokD]
    rfl
  · -- seconds and weekday: the third format matches in full
    have hs59 := hsec s rfl
    have hdata : (renderTS y mo d hh mi (some s) '-' '-' (some w)).data
        = pad4 y ++ (pad2 mo ++ (pad2 d ++ '-' ::
            (pad2 hh ++ (pad2 mi ++ (pad2 s ++ '-' :: w))))) := by
      simp [renderTS]
    have hfailA : strptimeM fmtNoSecA
        (renderTS y mo d hh mi (some s) '-' '-' (some w)) = none := by
      apply strptimeM_eq_none_of_nil
      rw [hdata]
      exact parseSeq_date_fail [Dir.dirH, Dir.dirMi, Dir.lit '-', Dir.dirA]
        y mo d (pad2 hh ++ (pad2 mi ++ (pad2 s ++ '-' :: w))) hy hmo1 hmo2
        hd1 hd31
        (parseSeq_hm_fail5 [Dir.dirA] (digitChar (hh / 10))
          (digitChar (hh % 10)) (digitChar (mi / 10)) (digitChar (mi % 10))
          (digitChar (s / 10)) (digitChar (s % 10) :: '-' :: w)
          (digitChar_isDigit (by omega)) (digitChar_isDigit (by omega))
          (digitChar_isDigit (by omega)))
    obtain ⟨t1, e1⟩ := parseMi_head mi hmi (pad2 s ++ '-' :: w)
    obtain ⟨j1, f1⟩ := parseSeq_cons_head
      (show dirParses Dir.dirMi (pad2 mi ++ (pad2 s ++ '-' :: w))
        = (mi, pad2 s ++ '-' :: w) :: t1 from e1)
      (show parseSeq [] (pad2 s ++ '-' :: w)
        = ([], pad2 s ++ '-' :: w) :: [] from rfl)
    obtain ⟨t2, e2⟩ := parseH_head hh hh2 (pad2 mi ++ (pad2 s ++ '-' :: w))
    obtain ⟨j2, f2⟩ := parseSeq_cons_head
      (show dirParses Dir.dirH (pad2 hh ++ (pad2 mi ++ (pad2 s ++ '-' :: w)))
        = (hh, pad2 mi ++ (pad2 s ++ '-' :: w)) :: t2 from e2) f1
    obtain ⟨j3, f3⟩ := parseSeq_date_head [Dir.dirH, Dir.dirMi] y mo d
      (pad2 hh ++ (pad2 mi ++ (pad2 s ++ '-' :: w))) _ _ _ hy hmo1 hmo2 hd1
      hd31 f2
    have hpB : parseSeq fmtNoSec
        (renderTS y mo d hh mi (some s) '-' '-' (some w)).data
        = (y :: mo :: d :: 0 :: hh :: mi :: [], pad2 s ++ '-' :: w) :: j3 := by
      rw [hdata]
      exact f3
    have hfailB : strptimeM fmtNoSec
        (renderTS y mo d hh mi (some s) '-' '-' (some w)) = none :=
      strptimeM_eq_none_of_rest hpB
    obtain ⟨i, hA⟩ := parseA_abbrev [] (hwd w rfl)
    rw [List.append_nil] at hA
    have fA : parseSeq [Dir.dirA] w = [([i], ([] : List Char))] := by
      rw [parseSeq_cons_single
        (show dirParses Dir.dirA w = [(i, ([] : List Char))] from hA)]
      rfl
    have fLit : parseSeq [Dir.lit '-', Dir.dirA] ('-' :: w)
        = [([0, i], ([] : List Char))] := by
      rw [parseSeq_lit_eq, fA]
      rfl
    obtain ⟨t0, e0⟩ := parseS_head s hs59 ('-' :: w)
    obtain ⟨j0, f0⟩ := parseSeq_cons_head
      (show dirParses Dir.dirS (pad2 s ++ '-' :: w) = (s, '-' :: w) :: t0
        from e0) fLit
    obtain ⟨t1', e1'⟩ := parseMi_head mi hmi (pad2 s ++ '-' :: w)
    obtain ⟨j1', f1'⟩ := parseSeq_cons_head
      (show dirParses Dir.dirMi (pad2 mi ++ (pad2 s ++ '-' :: w))
        = (mi, pad2 s ++ '-' :: w) :: t1' from e1') f0
    obtain ⟨t2', e2'⟩ := parseH_head hh hh2 (pad2 mi ++ (pad2 s ++ '-' :: w))
    obtain ⟨j2', f2'⟩ := parseSeq_cons_head
      (show dirParses Dir.dirH (pad2 hh ++ (pad2 mi ++ (pad2 s ++ '-' :: w)))
        = (hh, pad2 mi ++ (pad2 s ++ '-' :: w)) :: t2' from e2') f1'
    obtain ⟨j3', f3'⟩ := parseSeq_date_head
      [Dir.dirH, Dir.dirMi, Dir.dirS, Dir.lit '-', Dir.dirA] y mo d
      (pad2 hh ++ (pad2 mi ++ (pad2 s ++ '-' :: w))) _ _ _ hy hmo1 hmo2 hd1
      hd31 f2'
    have hpC : parseSeq fmtSecA
        (renderTS y mo d hh mi (some s) '-' '-' (some w)).data
        = (y :: mo :: d :: 0 :: hh :: mi :: s :: 0 :: i :: [],
            ([] : List Char)) :: j3' := by
      rw [hdata]
      exact f3'
    have hokC : strptimeM fmtSecA
        (renderTS y mo d hh mi (some s) '-' '-' (some w))
        = some ⟨y, mo, d, hh, mi, s⟩ :=
      strptimeM_eq_some hpC rfl
        (validDT_of_bounds y mo d hh mi s hy1 hy hmo1 hmo2 hd1 hd2 hh2 hmi
          hs59)
    rw [parse_timestamp_eq, hrepl, hfailA, hfailB, hokC]
    rfl

/-- Witness for C9: `20210519_1938 42 Wed` rendered with underscore and
space separators parses to 2021-05-19 19:38:42. -/
theorem C9_parse_timestamp_witness :
    parse_timestamp (renderTS 2021 5 19 19 38 (some 42) '_' ' '
      (some ['W', 'e', 'd'])) = some ⟨2021, 5, 19, 19, 38, 42⟩ :=
  C9_parse_timestamp_amended 2021 5 19 19 38 (some 42) '_' ' '
    (some ['W', 'e', 'd']) (by decide) (by decide) (by decide) (by decide)
    (by decide) (by decide) (by decide) (by decide)
    (by intro s h; injection h with h2; omega)
    (by decide) (by decide)
    (by intro w h; injection h with h2; rw [← h2]; decide)

/-- Witness for C3: for a 1 GiB source, 2 volumes, 5% redundancy the
chosen block size 12288 is itself a positive multiple of 4096 at least
the minimum block size. -/
theorem C3_par2_blocksize_witness :
    0 < par2_blocksize (2 ^ 30) 2 5 ∧
      (4096 : Int) ∣ par2_blocksize (2 ^ 30) 2 5 ∧
      par2_min_blocksize (2 ^ 30) 2 5 ≤ par2_blocksize (2 ^ 30) 2 5 :=
  (C3_par2_blocksize_least.1 (2 ^ 30) 2 5).1
